import Mathlib

/-!
# MillenniumDB: the SPARQL TSV select executor, its value printer, binding expressions,
`OpBind` and the nested loop join

A shallow embedding of `src/query/executor/query_executor/sparql/tsv_select_executor.cc`, of
the binding expressions `SHA512` and `TZ`, of the variable sets of `OpBind`, and of
`NestedLoopJoin`, whose methods are modelled from the specification.

* An `ObjectId` is the 64-bit word `object_id.id`, a natural number below `2^64`.
* The collaborators whose code is not part of the sources (catalog tables, string manager,
  temp manager, path manager, inliner, number formatters, the escaping stream buffer, the
  `ObjectId` case labels) are the fields of `Env`.
* `print` writes to two streams; its result is the sequence of writes, each tagged with the
  formal stream parameter it went to, together with the exception that ended it, if any.
-/

namespace MillenniumDB

/-- The 64-bit word of an `ObjectId` (`object_id.id`). -/
abbrev ObjectId := Nat

/-- A variable id (`VarId`), the index of a variable in a `Binding`. -/
abbrev VarId := Nat

/-- A `Binding`: the value of every variable, read with `(*binding)[var]`. -/
abbrev Binding := VarId → ObjectId

/-! ## Bit layout of an `ObjectId` -/

/-- Modelled from the spec: `ObjectId::TYPE_MASK` of `graph_models/object_id.h` (not in the
sources), "type tag (high 8 bits, `TYPE_MASK`)". -/
def TYPE_MASK : Nat := 0xFF00000000000000

/-- Modelled from the spec: `ObjectId::VALUE_MASK` of `graph_models/object_id.h` (not in the
sources), "value payload (low 56 bits, `VALUE_MASK`)". -/
def VALUE_MASK : Nat := 0x00FFFFFFFFFFFFFF

/-- Modelled from the spec: `ObjectId::MASK_IRI_PREFIX` of `graph_models/object_id.h` (not in
the sources), "Inlined IRIs reserve high 8 bits of payload for the prefix id". -/
def MASK_IRI_PREFIX : Nat := 0x00FF000000000000

/-- Modelled from the spec: `ObjectId::MASK_IRI_CONTENT` of `graph_models/object_id.h` (not in
the sources): the payload bits below the 8-bit prefix id, the local part of an IRI. -/
def MASK_IRI_CONTENT : Nat := 0x0000FFFFFFFFFFFF

/-- Modelled from the spec: `ObjectId::MASK_LITERAL_TAG` of `graph_models/object_id.h` (not in
the sources), the "16-bit datatype id" or "16-bit language id" at the top of the payload. -/
def MASK_LITERAL_TAG : Nat := 0x00FFFF0000000000

/-- Modelled from the spec: `ObjectId::MASK_LITERAL` of `graph_models/object_id.h` (not in the
sources): the payload bits below the 16-bit datatype or language id. -/
def MASK_LITERAL : Nat := 0x000000FFFFFFFFFF

/-- Modelled from the spec: `ObjectId::MASK_TAG_MANAGER` of `graph_models/object_id.h` (not in
the sources), the "high bit" of a 16-bit datatype or language id. -/
def MASK_TAG_MANAGER : Nat := 0x8000

/-- Modelled from the spec: `ObjectId::IRI_INLINE_BYTES` of `graph_models/object_id.h` (not in
the sources), IRI local parts are "inline (≤6 bytes)". -/
def IRI_INLINE_BYTES : Nat := 6

/-- Modelled from the spec: `ObjectId::STR_DT_INLINE_BYTES` of `graph_models/object_id.h` (not
in the sources), the inline byte budget 5 of a string with a datatype id. -/
def STR_DT_INLINE_BYTES : Nat := 5

/-- Modelled from the spec: `ObjectId::STR_LANG_INLINE_BYTES` of `graph_models/object_id.h`
(not in the sources), the inline byte budget 5 of a string with a language id. -/
def STR_LANG_INLINE_BYTES : Nat := 5

/-- Bitwise complement of a `uint64_t` (`~x`). -/
def not64 (x : Nat) : Nat := 2 ^ 64 - 1 - x % 2 ^ 64

/-- Conversion of a 64-bit word to `int64_t` (two's complement). -/
def toInt64 (x : Nat) : Int :=
  if x % 2 ^ 64 < 2 ^ 63 then ((x % 2 ^ 64 : Nat) : Int) else ((x % 2 ^ 64 : Nat) : Int) - 2 ^ 64

/-- The `int64_t` a mathematical integer wraps to. -/
def wrapInt64 (i : Int) : Int := (i + 2 ^ 63) % 2 ^ 64 - 2 ^ 63

/-- The categories of `ObjectId`: one for each `case ObjectId::MASK_...` label of the switch
in `TSVSelectExecutor::print`. -/
inductive Category
  | ANON_INLINED
  | ANON_TMP
  | STRING_SIMPLE_EXTERN
  | STRING_SIMPLE_INLINED
  | STRING_SIMPLE_TMP
  | STRING_XSD_EXTERN
  | STRING_XSD_INLINED
  | STRING_XSD_TMP
  | POSITIVE_INT
  | NEGATIVE_INT
  | FLOAT
  | DOUBLE_EXTERN
  | DOUBLE_TMP
  | BOOL
  | PATH
  | IRI_EXTERN
  | IRI_INLINED
  | IRI_TMP
  | STRING_DATATYPE_INLINED
  | STRING_DATATYPE_EXTERN
  | STRING_DATATYPE_TMP
  | STRING_LANG_INLINED
  | STRING_LANG_EXTERN
  | STRING_LANG_TMP
  | DT_DATE
  | DT_DATETIME
  | DT_TIME
  | DT_DATETIMESTAMP
  | DECIMAL_EXTERN
  | DECIMAL_INLINED
  | DECIMAL_TMP
  | NULL
  deriving DecidableEq, Repr

/-- The case labels of the switch in `TSVSelectExecutor::print`, in source order. -/
def Category.caseLabels : List Category :=
  [.ANON_INLINED, .ANON_TMP, .STRING_SIMPLE_EXTERN, .STRING_SIMPLE_INLINED, .STRING_SIMPLE_TMP,
   .STRING_XSD_EXTERN, .STRING_XSD_INLINED, .STRING_XSD_TMP, .POSITIVE_INT, .NEGATIVE_INT,
   .FLOAT, .DOUBLE_EXTERN, .DOUBLE_TMP, .BOOL, .PATH, .IRI_EXTERN, .IRI_INLINED, .IRI_TMP,
   .STRING_DATATYPE_INLINED, .STRING_DATATYPE_EXTERN, .STRING_DATATYPE_TMP,
   .STRING_LANG_INLINED, .STRING_LANG_EXTERN, .STRING_LANG_TMP,
   .DT_DATE, .DT_DATETIME, .DT_TIME, .DT_DATETIMESTAMP,
   .DECIMAL_EXTERN, .DECIMAL_INLINED, .DECIMAL_TMP, .NULL]

/-- One action of `path_manager.print(os, path_id, &print_path_node, &print_path_edge)`: text
it writes to `os` itself, a call of the node printer, or a call of the edge printer. -/
inductive PathAction
  | text (s : String)
  | node (node_id : ObjectId)
  | edge (edge_id : ObjectId) (inverse : Bool)
  deriving DecidableEq, Repr

/-- The collaborators of the executor whose code is not part of the sources. -/
structure Env where
  /-- The constant `ObjectId::MASK_<category>` of `graph_models/object_id.h`. -/
  mask : Category → Nat
  /-- The method `ObjectId::is_null()`. -/
  is_null : ObjectId → Bool
  /-- The query context's `get_var_name(var)`. -/
  get_var_name : VarId → String
  /-- What the stream buffer `TSVOstreamEscape` forwards to `os` for text written to it. -/
  escape : String → String
  /-- The text `string_manager.print(os, id)` writes. -/
  string_manager_print : Nat → String
  /-- The text `tmp_manager.print_str(os, id)` writes. -/
  tmp_print_str : Nat → String
  /-- The text `tmp_manager.print_dtt(os, id)` writes. -/
  tmp_print_dtt : Nat → String
  /-- The text `tmp_manager.print_lan(os, id)` writes. -/
  tmp_print_lan : Nat → String
  /-- The text `Inliner::print_string_inlined<N>(os, id)` writes. -/
  print_string_inlined : Nat → Nat → String
  /-- The table `rdf_model.catalog().prefixes`. -/
  prefixes : Nat → String
  /-- The table `rdf_model.catalog().datatypes`. -/
  datatypes : Nat → String
  /-- The table `rdf_model.catalog().languages`. -/
  languages : Nat → String
  /-- The actions of `path_manager.print` for a path id. -/
  path_manager_print : Nat → List PathAction
  /-- The text `jkj::dragonbox::to_chars` produces for the `float` with the given 32 bits. -/
  float_to_chars : Nat → String
  /-- The text `jkj::dragonbox::to_chars` produces for `Conversions::unpack_double(oid)`. -/
  double_to_chars : ObjectId → String
  /-- The text of `DateTime(oid).get_value_string()`. -/
  datetime_value_string : ObjectId → String
  /-- The text of `DateTime(oid).get_datatype_string()`. -/
  datetime_datatype_string : ObjectId → String
  /-- The text `os << Decimal::from_external(str)` writes. -/
  decimal_from_external : String → String
  /-- The text of `DecimalInlined(id).get_value_string()`. -/
  decimal_inlined_value_string : Nat → String

/-- Modelled from the spec: the accessor `ObjectId::get_value()` of `graph_models/object_id.h`
(not in the sources), the "value payload (low 56 bits, `VALUE_MASK`)". -/
def get_value (object_id : ObjectId) : Nat := object_id &&& VALUE_MASK

/-! ## Streams -/

/-- The two stream parameters of `TSVSelectExecutor::print`. -/
inductive Stream
  | os
  | escaped_os
  deriving DecidableEq, Repr

/-- One `<<` on one of the two streams. -/
structure Write where
  stream : Stream
  text : String
  deriving DecidableEq, Repr

/-- An exception that ends a call. `nesting_exhausted` is not an exception of the program: it
marks a run of the model that needs more nesting depth than it was given. -/
inductive Failure
  | logic_error (what : String)
  | nesting_exhausted
  deriving DecidableEq, Repr

/-- What a call of `print` did: its writes in order, and the exception it threw, if any. -/
structure PrintResult where
  writes : List Write
  thrown : Option Failure
  deriving DecidableEq, Repr

/-- A write to the raw stream `os`. -/
def raw (s : String) : Write := ⟨.os, s⟩

/-- A write to the escaping stream `escaped_os`. -/
def esc (s : String) : Write := ⟨.escaped_os, s⟩

/-- A call that ran to its end. -/
def done (ws : List Write) : PrintResult := ⟨ws, none⟩

/-- The text that reaches the underlying stream when `os` is that stream and `escaped_os` is a
`TSVOstreamEscape` over it. -/
def render (escape : String → String) : List Write → String
  | [] => ""
  | w :: ws =>
    (match w.stream with
     | .os => w.text
     | .escaped_os => escape w.text) ++ render escape ws

/-- The text written to the formal stream `s`. -/
def writtenTo (s : Stream) (ws : List Write) : String :=
  String.join ((ws.filter (fun w => w.stream = s)).map Write.text)

/-- What a function writing to the single stream `os` did: the text written, and the exception
it threw, if any. -/
structure OsResult where
  text : String
  thrown : Option Failure
  deriving DecidableEq, Repr

/-! ## The printer -/

/-- The case of `switch (mask)` that is entered: the case label equal to `mask`; `none` is
the `default:` case. -/
def switchCase (E : Env) (mask : Nat) : Option Category :=
  Category.caseLabels.find? (fun c => E.mask c = mask)

/-- The function `print_datatype_rdf_tsv(os, datatype_id)`. -/
def print_datatype_rdf_tsv (E : Env) (datatype_id : Nat) : String :=
  "^^<"
    ++ (if datatype_id &&& MASK_TAG_MANAGER = 0 then E.datatypes datatype_id
        else E.tmp_print_dtt (datatype_id &&& not64 MASK_TAG_MANAGER))
    ++ ">"

/-- The function `print_language_rdf_tsv(os, language_id)`. -/
def print_language_rdf_tsv (E : Env) (language_id : Nat) : String :=
  "@"
    ++ (if language_id &&& MASK_TAG_MANAGER = 0 then E.languages language_id
        else E.tmp_print_lan (language_id &&& not64 MASK_TAG_MANAGER))

/-- The function `TSVSelectExecutor::print_path_node(os, node_id)`, over the given `print`: the
node is printed with `os` raw and a fresh `TSVOstreamEscape` over `os`. -/
def print_path_node (E : Env) (print : ObjectId → PrintResult) (node_id : ObjectId) :
    OsResult :=
  let r := print node_id
  ⟨render E.escape r.writes, r.thrown⟩

/-- The function `TSVSelectExecutor::print_path_edge(os, edge_id, inverse)`, over the given
`print`: the edge is printed with `os` passed for both streams. -/
def print_path_edge (print : ObjectId → PrintResult) (edge_id : ObjectId) (inverse : Bool) :
    OsResult :=
  let r := print edge_id
  let head := " " ++ (if inverse then "^" else "") ++ render (fun s => s) r.writes
  match r.thrown with
  | none => ⟨head ++ " ", none⟩
  | some f => ⟨head, some f⟩

/-- The call `path_manager.print(os, path_id, &print_path_node, &print_path_edge)` as the run
of its actions; an exception of a printer ends it. -/
def run_path_actions (E : Env) (print : ObjectId → PrintResult) : List PathAction → OsResult
  | [] => ⟨"", none⟩
  | a :: rest =>
    let r : OsResult :=
      match a with
      | .text s => ⟨s, none⟩
      | .node node_id => print_path_node E print node_id
      | .edge edge_id inverse => print_path_edge print edge_id inverse
    match r.thrown with
    | some f => ⟨r.text, some f⟩
    | none =>
      let r2 := run_path_actions E print rest
      ⟨r.text ++ r2.text, r2.thrown⟩

/-- The body of `TSVSelectExecutor::print(os, escaped_os, object_id)`; `nested` is the `print`
that the path printers call. -/
def printWith (E : Env) (nested : ObjectId → PrintResult) (object_id : ObjectId) :
    PrintResult :=
  let mask := object_id &&& TYPE_MASK
  let unmasked_id := object_id &&& VALUE_MASK
  match switchCase E mask with
  | some .ANON_INLINED => done [raw "_:b", raw (toString unmasked_id)]
  | some .ANON_TMP => done [raw "_:c", raw (toString unmasked_id)]
  | some .STRING_SIMPLE_EXTERN =>
    done [raw "\"", esc (E.string_manager_print unmasked_id), raw "\""]
  | some .STRING_SIMPLE_INLINED =>
    done [raw "\"", esc (E.print_string_inlined 7 unmasked_id), raw "\""]
  | some .STRING_SIMPLE_TMP =>
    done [raw "\"", esc (E.tmp_print_str unmasked_id), raw "\""]
  | some .STRING_XSD_EXTERN =>
    done [raw "\"", esc (E.string_manager_print unmasked_id),
          raw "\"^^<http://www.w3.org/2001/XMLSchema#string>"]
  | some .STRING_XSD_INLINED =>
    done [raw "\"", esc (E.print_string_inlined 7 unmasked_id),
          raw "\"^^<http://www.w3.org/2001/XMLSchema#string>"]
  | some .STRING_XSD_TMP =>
    done [raw "\"", esc (E.tmp_print_str unmasked_id),
          raw "\"^^<http://www.w3.org/2001/XMLSchema#string>"]
  | some .POSITIVE_INT =>
    let i : Int := toInt64 unmasked_id
    done [raw (toString i)]
  | some .NEGATIVE_INT =>
    let i : Int := toInt64 (not64 object_id &&& 0x00FFFFFFFFFFFFFF)
    done [raw (toString (wrapInt64 (i * -1)))]
  | some .FLOAT =>
    let dest0 := object_id &&& 0xFF
    let dest1 := (object_id >>> 8) &&& 0xFF
    let dest2 := (object_id >>> 16) &&& 0xFF
    let dest3 := (object_id >>> 24) &&& 0xFF
    done [raw (E.float_to_chars (dest0 + 2 ^ 8 * dest1 + 2 ^ 16 * dest2 + 2 ^ 24 * dest3))]
  | some .DOUBLE_EXTERN => done [raw (E.double_to_chars object_id)]
  | some .DOUBLE_TMP => done [raw (E.double_to_chars object_id)]
  | some .BOOL =>
    done [raw (if get_value object_id = 0 then "false" else "true"),
          raw "^^<http://www.w3.org/2001/XMLSchema#boolean>"]
  | some .PATH =>
    let r := run_path_actions E nested (E.path_manager_print unmasked_id)
    match r.thrown with
    | none => done [raw "[", raw r.text, raw "]"]
    | some f => ⟨[raw "[", raw r.text], some f⟩
  | some .IRI_EXTERN =>
    let iri_id := unmasked_id &&& MASK_IRI_CONTENT
    let prefix_id := ((unmasked_id &&& MASK_IRI_PREFIX) >>> 48) % 2 ^ 8
    done [raw "<", raw (E.prefixes prefix_id), raw (E.string_manager_print iri_id), raw ">"]
  | some .IRI_INLINED =>
    let prefix_id := ((object_id &&& MASK_IRI_PREFIX) >>> (8 * IRI_INLINE_BYTES)) % 2 ^ 8
    done [raw "<", raw (E.prefixes prefix_id), raw (E.print_string_inlined 6 unmasked_id),
          raw ">"]
  | some .IRI_TMP =>
    let prefix_id := ((unmasked_id &&& MASK_IRI_PREFIX) >>> 48) % 2 ^ 8
    let iri_id := unmasked_id &&& MASK_IRI_CONTENT
    done [raw "<", raw (E.prefixes prefix_id), raw (E.tmp_print_str iri_id), raw ">"]
  | some .STRING_DATATYPE_INLINED =>
    let prefix_shift_size := 8 * STR_DT_INLINE_BYTES
    let datatype_id := ((object_id &&& MASK_LITERAL_TAG) >>> prefix_shift_size) % 2 ^ 16
    done [raw "\"", esc (E.print_string_inlined 5 unmasked_id), raw "\"",
          raw (print_datatype_rdf_tsv E datatype_id)]
  | some .STRING_DATATYPE_EXTERN =>
    let str_id := unmasked_id &&& MASK_LITERAL
    let datatype_id := ((unmasked_id &&& MASK_LITERAL_TAG) >>> 40) % 2 ^ 16
    done [raw "\"", esc (E.string_manager_print str_id), raw "\"",
          raw (print_datatype_rdf_tsv E datatype_id)]
  | some .STRING_DATATYPE_TMP =>
    let str_id := unmasked_id &&& MASK_LITERAL
    let datatype_id := (unmasked_id &&& MASK_LITERAL_TAG) >>> 40
    done [raw "\"", esc (E.tmp_print_str str_id), raw "\"",
          raw (print_datatype_rdf_tsv E datatype_id)]
  | some .STRING_LANG_INLINED =>
    let prefix_shift_size := 8 * STR_LANG_INLINE_BYTES
    let language_id := ((object_id &&& MASK_LITERAL_TAG) >>> prefix_shift_size) % 2 ^ 16
    done [raw "\"", esc (E.print_string_inlined 5 unmasked_id), raw "\"",
          raw (print_language_rdf_tsv E language_id)]
  | some .STRING_LANG_EXTERN =>
    let str_id := unmasked_id &&& MASK_LITERAL
    let language_id := ((unmasked_id &&& MASK_LITERAL_TAG) >>> 40) % 2 ^ 16
    done [raw "\"", esc (E.string_manager_print str_id), raw "\"",
          raw (print_language_rdf_tsv E language_id)]
  | some .STRING_LANG_TMP =>
    let str_id := unmasked_id &&& MASK_LITERAL
    let language_id := (unmasked_id &&& MASK_LITERAL_TAG) >>> 40
    done [raw "\"", esc (E.tmp_print_str str_id), raw "\"",
          raw (print_language_rdf_tsv E language_id)]
  | some .DT_DATE | some .DT_DATETIME | some .DT_TIME | some .DT_DATETIMESTAMP =>
    done [raw "\"", raw (E.datetime_value_string object_id), raw "\"^^<",
          raw (E.datetime_datatype_string object_id), raw ">"]
  | some .DECIMAL_EXTERN =>
    done [raw (E.decimal_from_external (E.string_manager_print unmasked_id))]
  | some .DECIMAL_INLINED => done [raw (E.decimal_inlined_value_string unmasked_id)]
  | some .DECIMAL_TMP =>
    done [raw (E.decimal_from_external (E.tmp_print_str unmasked_id))]
  | some .NULL => done []
  | none =>
    ⟨[], some (.logic_error ("Unmanaged mask in TSVSelectExecutor::print: " ++ toString mask))⟩

/-- The function `TSVSelectExecutor::print(os, escaped_os, object_id)`. The first argument
bounds how deep `print` may be re-entered through the path printers; ids that are not paths
need no depth. -/
def print (E : Env) : Nat → ObjectId → PrintResult
  | 0 => printWith E (fun _ => ⟨[], some .nesting_exhausted⟩)
  | depth + 1 => printWith E (print E depth)

/-! ## The executor -/

/-- What the body of the row loop did for one row: the text written to `os` before the final
newline, the values `print` was called with, and the exception that ended it, if any. -/
structure RowResult where
  text : String
  calls : List ObjectId
  thrown : Option Failure
  deriving DecidableEq, Repr

/-- What `execute` did: the text written to `os`, and the returned count or the exception
that ended the query. -/
structure ExecResult where
  os : String
  result : Except Failure Nat

/-- The function `TSVSelectExecutor::execute_empty_binding(os)`, started with `result_count`
rows counted and the header written; the root iterator is the list of the rows its `next()`
still yields. -/
def execute_empty_rows : List Binding → Nat → String × Nat
  | [], result_count => ("", result_count)
  | _ :: root, result_count =>
    let result_count := (result_count + 1) % 2 ^ 64
    let r := execute_empty_rows root result_count
    ("\n" ++ r.1, r.2)

/-- The function `TSVSelectExecutor::execute_empty_binding(os)`. -/
def execute_empty_binding (root : List Binding) : String × Nat :=
  let r := execute_empty_rows root 0
  ("\n" ++ r.1, r.2)

/-- The header loop of `execute`: `while (++it != projection_vars.cend())`. -/
def header_rest (E : Env) : List VarId → String
  | [] => ""
  | it :: rest => "\t" ++ E.get_var_name it ++ header_rest E rest

/-- The inner `for` loop of `execute` over the projection variables, from `it` on; `sep` is
the current separator. -/
def row_loop (E : Env) (depth : Nat) (binding : Binding) : List VarId → String → RowResult
  | [], _ => ⟨"", [], none⟩
  | it :: rest, sep =>
    let value := binding it
    if !E.is_null value then
      let p := print E depth value
      let text := sep ++ render E.escape p.writes
      match p.thrown with
      | some f => ⟨text, [value], some f⟩
      | none =>
        let r := row_loop E depth binding rest "\t"
        ⟨text ++ r.text, value :: r.calls, r.thrown⟩
    else row_loop E depth binding rest sep

/-- The body of the row loop of `execute` for the row `binding`, up to the final newline. The
separator starts as the C string `"\0"`, which is empty. -/
def execute_row (E : Env) (depth : Nat) (projection_vars : List VarId) (binding : Binding) :
    RowResult :=
  row_loop E depth binding projection_vars ""

/-- The row loop of `execute`: `while (root->next())`, started with `result_count` rows
counted. -/
def execute_rows (E : Env) (depth : Nat) (projection_vars : List VarId) :
    List Binding → Nat → ExecResult
  | [], result_count => ⟨"", .ok result_count⟩
  | binding :: root, result_count =>
    let result_count := (result_count + 1) % 2 ^ 64
    let row := execute_row E depth projection_vars binding
    match row.thrown with
    | some f => ⟨row.text, .error f⟩
    | none =>
      let r := execute_rows E depth projection_vars root result_count
      ⟨row.text ++ "\n" ++ r.os, r.result⟩

/-- The function `TSVSelectExecutor::execute(os)`, for the projection `projection_vars` and a
root iterator whose `next()` yields the rows `root`. -/
def execute (E : Env) (depth : Nat) (projection_vars : List VarId) (root : List Binding) :
    ExecResult :=
  match projection_vars with
  | [] =>
    let r := execute_empty_binding root
    ⟨r.1, .ok r.2⟩
  | it :: rest =>
    let header := E.get_var_name it ++ header_rest E rest ++ "\n"
    let r := execute_rows E depth projection_vars root 0
    ⟨header ++ r.os, r.result⟩

/-! ## A concrete environment -/

/-- A sample assignment of distinct tags to the categories. -/
def sampleMask : Category → Nat
  | .NULL => 0x0000000000000000
  | .ANON_INLINED => 0x0100000000000000
  | .ANON_TMP => 0x0200000000000000
  | .STRING_SIMPLE_EXTERN => 0x0300000000000000
  | .STRING_SIMPLE_INLINED => 0x0400000000000000
  | .STRING_SIMPLE_TMP => 0x0500000000000000
  | .STRING_XSD_EXTERN => 0x0600000000000000
  | .STRING_XSD_INLINED => 0x0700000000000000
  | .STRING_XSD_TMP => 0x0800000000000000
  | .POSITIVE_INT => 0x0900000000000000
  | .NEGATIVE_INT => 0x0A00000000000000
  | .FLOAT => 0x0B00000000000000
  | .DOUBLE_EXTERN => 0x0C00000000000000
  | .DOUBLE_TMP => 0x0D00000000000000
  | .BOOL => 0x0E00000000000000
  | .PATH => 0x0F00000000000000
  | .IRI_EXTERN => 0x1000000000000000
  | .IRI_INLINED => 0x1100000000000000
  | .IRI_TMP => 0x1200000000000000
  | .STRING_DATATYPE_INLINED => 0x1300000000000000
  | .STRING_DATATYPE_EXTERN => 0x1400000000000000
  | .STRING_DATATYPE_TMP => 0x1500000000000000
  | .STRING_LANG_INLINED => 0x1600000000000000
  | .STRING_LANG_EXTERN => 0x1700000000000000
  | .STRING_LANG_TMP => 0x1800000000000000
  | .DT_DATE => 0x1900000000000000
  | .DT_DATETIME => 0x1A00000000000000
  | .DT_TIME => 0x1B00000000000000
  | .DT_DATETIMESTAMP => 0x1C00000000000000
  | .DECIMAL_EXTERN => 0x1D00000000000000
  | .DECIMAL_INLINED => 0x1E00000000000000
  | .DECIMAL_TMP => 0x1F00000000000000

/-- The category a sample tag stands for. -/
def sampleCategory (mask : Nat) : Option Category :=
  Category.caseLabels.find? (fun c => sampleMask c = mask)

/-- A sample escaping of one character: tab, newline, carriage return, backslash and quote
become backslash sequences. -/
def sampleEscapeChar (c : Char) : List Char :=
  if c = '\t' then ['\\', 't']
  else if c = '\n' then ['\\', 'n']
  else if c = '\r' then ['\\', 'r']
  else if c = '\\' then ['\\', '\\']
  else if c = '"' then ['\\', '"']
  else [c]

/-- A sample inliner: the bytes of the id from byte `n - 1` down, up to the first zero byte. -/
def sampleInlined : Nat → Nat → List Char
  | 0, _ => []
  | n + 1, id =>
    let byte := (id >>> (8 * n)) &&& 0xFF
    if byte = 0 then [] else Char.ofNat byte :: sampleInlined n id

/-- A sample table of names. -/
def sampleNames (stem : String) (i : Nat) : String := stem ++ toString i

/-- A concrete environment. -/
def sampleEnv : Env where
  mask := sampleMask
  is_null := fun oid => oid == 0
  get_var_name := fun v => if v = 0 then "x" else if v = 1 then "y" else sampleNames "v" v
  escape := fun s => String.mk (s.data.flatMap sampleEscapeChar)
  string_manager_print := fun id => if id = 1 then "say \"hi\"" else sampleNames "str" id
  tmp_print_str := sampleNames "tmp"
  tmp_print_dtt := sampleNames "http://example.org/tmp-datatype/"
  tmp_print_lan := sampleNames "tmp-lang-"
  print_string_inlined := fun n id => String.mk (sampleInlined n id)
  prefixes := fun i => if i = 0 then "" else sampleNames "http://example.org/ns" i ++ "#"
  datatypes := sampleNames "http://example.org/datatype/"
  languages := sampleNames "lang-"
  path_manager_print := fun id =>
    if id = 1 then [.node 0x0900000000000007, .edge 0x11016B6E6F777300 true,
                    .node 0xFF00000000000000]
    else [.node 0x0900000000000007, .edge 0x11016B6E6F777300 false, .node 0x0900000000000008]
  float_to_chars := sampleNames "float-bits-"
  double_to_chars := sampleNames "double-of-"
  datetime_value_string := sampleNames "datetime-of-"
  datetime_datatype_string := fun _ => "http://www.w3.org/2001/XMLSchema#dateTime"
  decimal_from_external := fun s => s
  decimal_inlined_value_string := sampleNames "decimal-"

/-- The `print` that the path printers reach from a `print` of the given depth. -/
def nestedPrint (E : Env) : Nat → ObjectId → PrintResult
  | 0 => fun _ => ⟨[], some .nesting_exhausted⟩
  | depth + 1 => print E depth

/-- The text that a call `print(os, escaped_os, value)` of `execute` leaves on `os`. -/
def printed (E : Env) (depth : Nat) (value : ObjectId) : String :=
  render E.escape (print E depth value).writes

/-- The projected values of a row that are not null, in projection order. -/
def nonNullValues (E : Env) (projection_vars : List VarId) (binding : Binding) :
    List ObjectId :=
  (projection_vars.map binding).filter (fun value => !E.is_null value)

/-! ## The logical operator `OpBind` (`src/query/parser/op/sparql/op_bind.h`) -/

/-- An expression of the parser (`Expr`), through the result of its `get_all_vars()`. -/
structure Expr where
  all_vars : Finset VarId

/-- A logical operator (`Op`): an `OpBind`, or any other operator, given by the results of its
four variable-set queries. -/
inductive Op
  | other (all_vars scope_vars safe_vars fixable_vars : Finset VarId)
  | OpBind (op : Op) (var : VarId) (expr : Expr)

/-- The method `get_all_vars()`; for `OpBind` the child's variables, `var` and the variables
of `expr`. -/
def Op.get_all_vars : Op → Finset VarId
  | .other all_vars _ _ _ => all_vars
  | .OpBind op var expr => (insert var op.get_all_vars) ∪ expr.all_vars

/-- The method `get_scope_vars()`; for `OpBind`: `res = op->get_scope_vars(); res.insert(var)`. -/
def Op.get_scope_vars : Op → Finset VarId
  | .other _ scope_vars _ _ => scope_vars
  | .OpBind op var _ => insert var op.get_scope_vars

/-- The method `get_safe_vars()`; for `OpBind`: `return op->get_safe_vars()`. -/
def Op.get_safe_vars : Op → Finset VarId
  | .other _ _ safe_vars _ => safe_vars
  | .OpBind op _ _ => op.get_safe_vars

/-- The method `get_fixable_vars()`; for `OpBind`: `return op->get_fixable_vars()`. -/
def Op.get_fixable_vars : Op → Finset VarId
  | .other _ _ _ fixable_vars => fixable_vars
  | .OpBind op _ _ => op.get_fixable_vars

/-! ## Binding expressions (`binding_expr_sha512.h`, `binding_expr_tz.h`) -/

/-- A sub type of `ObjectId`: a category without its storage variant. -/
inductive SubType
  | ANON
  | STRING_SIMPLE
  | STRING_XSD
  | STRING_DATATYPE
  | STRING_LANG
  | IRI
  | POSITIVE_INT
  | NEGATIVE_INT
  | FLOAT
  | DOUBLE
  | BOOL
  | PATH
  | DECIMAL
  | DT_DATE
  | DT_DATETIME
  | DT_TIME
  | DT_DATETIMESTAMP
  | NULL
  deriving DecidableEq, Repr

/-- A generic type of `ObjectId`: the bucket of all strings, the bucket of all temporals, or
the bucket of another sub type. -/
inductive GenericType
  | STRING
  | DT
  | OTHER (sub : SubType)
  deriving DecidableEq, Repr

/-- The sub type of a category: the category without `EXTERN`, `INLINED` or `TMP`. -/
def Category.subType : Category → SubType
  | .ANON_INLINED | .ANON_TMP => .ANON
  | .STRING_SIMPLE_EXTERN | .STRING_SIMPLE_INLINED | .STRING_SIMPLE_TMP => .STRING_SIMPLE
  | .STRING_XSD_EXTERN | .STRING_XSD_INLINED | .STRING_XSD_TMP => .STRING_XSD
  | .STRING_DATATYPE_EXTERN | .STRING_DATATYPE_INLINED | .STRING_DATATYPE_TMP =>
    .STRING_DATATYPE
  | .STRING_LANG_EXTERN | .STRING_LANG_INLINED | .STRING_LANG_TMP => .STRING_LANG
  | .IRI_EXTERN | .IRI_INLINED | .IRI_TMP => .IRI
  | .POSITIVE_INT => .POSITIVE_INT
  | .NEGATIVE_INT => .NEGATIVE_INT
  | .FLOAT => .FLOAT
  | .DOUBLE_EXTERN | .DOUBLE_TMP => .DOUBLE
  | .BOOL => .BOOL
  | .PATH => .PATH
  | .DECIMAL_EXTERN | .DECIMAL_INLINED | .DECIMAL_TMP => .DECIMAL
  | .DT_DATE => .DT_DATE
  | .DT_DATETIME => .DT_DATETIME
  | .DT_TIME => .DT_TIME
  | .DT_DATETIMESTAMP => .DT_DATETIMESTAMP
  | .NULL => .NULL

/-- The bucket of a sub type: "any temporal → `MASK_DT`; any string flavor → `MASK_STRING`". -/
def SubType.genericType : SubType → GenericType
  | .STRING_SIMPLE | .STRING_XSD | .STRING_DATATYPE | .STRING_LANG => .STRING
  | .DT_DATE | .DT_DATETIME | .DT_TIME | .DT_DATETIMESTAMP => .DT
  | sub => .OTHER sub

/-- Modelled from the spec: the accessor `ObjectId::get_sub_type()` of
`graph_models/object_id.h` (not in the sources): the sub tag of the category of the word,
`STRING_SIMPLE` for a simple string "in any storage variant"; `none` for a word whose tag
is no category. -/
def get_sub_type (E : Env) (object_id : ObjectId) : Option SubType :=
  (switchCase E (object_id &&& TYPE_MASK)).map Category.subType

/-- Modelled from the spec: the accessor `ObjectId::get_generic_type()` of
`graph_models/object_id.h` (not in the sources), which "coalesces sub-tags into broad buckets
(e.g. any temporal → `MASK_DT`; any string flavor → `MASK_STRING`)". -/
def get_generic_type (E : Env) (object_id : ObjectId) : Option GenericType :=
  (get_sub_type E object_id).map SubType.genericType

/-- Modelled from the spec: `ObjectId::get_null()` of `graph_models/object_id.h` (not in the
sources): the word of the distinguished `NULL` tag. -/
def get_null (E : Env) : ObjectId := E.mask .NULL

/-- The collaborators of the binding expressions whose code is not part of the sources. -/
structure ExprEnv where
  /-- The string `Conversions::unpack_string_simple(oid)` returns. -/
  unpack_string_simple : ObjectId → String
  /-- The string `DateTime(oid).get_tz()` returns. -/
  datetime_get_tz : ObjectId → String
  /-- The payload the inliner gives a string that fits the inline byte budget. -/
  inline_string : String → Nat
  /-- The id the temp manager gives a string. -/
  tmp_get_str_id : String → Nat

/-- The bytes of a `std::string`: the UTF-8 encoding of its text. -/
def utf8Bytes (s : String) : List Nat :=
  s.data.flatMap (fun c => (String.utf8EncodeChar c).map UInt8.toNat)

/-- Modelled from the spec: `Conversions::pack_string_simple(str)` of
`graph_models/rdf_model/conversions.h` (not in the sources): "if a simple-string literal fits
in the inline byte budget, pack inlined" (7 bytes for a simple string); else "obtain an id
from the temp store", as "values constructed by expression evaluation during a query go to
the temp store". -/
def pack_string_simple (E : Env) (X : ExprEnv) (str : String) : ObjectId :=
  if (utf8Bytes str).length ≤ 7 then E.mask .STRING_SIMPLE_INLINED ||| X.inline_string str
  else E.mask .STRING_SIMPLE_TMP ||| X.tmp_get_str_id str

namespace SHA512

/-- Part of the model of `SHA512::hash`: the round constants of SHA-512. -/
def K : List Nat :=
  [0x428A2F98D728AE22, 0x7137449123EF65CD, 0xB5C0FBCFEC4D3B2F, 0xE9B5DBA58189DBBC,
   0x3956C25BF348B538, 0x59F111F1B605D019, 0x923F82A4AF194F9B, 0xAB1C5ED5DA6D8118,
   0xD807AA98A3030242, 0x12835B0145706FBE, 0x243185BE4EE4B28C, 0x550C7DC3D5FFB4E2,
   0x72BE5D74F27B896F, 0x80DEB1FE3B1696B1, 0x9BDC06A725C71235, 0xC19BF174CF692694,
   0xE49B69C19EF14AD2, 0xEFBE4786384F25E3, 0x0FC19DC68B8CD5B5, 0x240CA1CC77AC9C65,
   0x2DE92C6F592B0275, 0x4A7484AA6EA6E483, 0x5CB0A9DCBD41FBD4, 0x76F988DA831153B5,
   0x983E5152EE66DFAB, 0xA831C66D2DB43210, 0xB00327C898FB213F, 0xBF597FC7BEEF0EE4,
   0xC6E00BF33DA88FC2, 0xD5A79147930AA725, 0x06CA6351E003826F, 0x142929670A0E6E70,
   0x27B70A8546D22FFC, 0x2E1B21385C26C926, 0x4D2C6DFC5AC42AED, 0x53380D139D95B3DF,
   0x650A73548BAF63DE, 0x766A0ABB3C77B2A8, 0x81C2C92E47EDAEE6, 0x92722C851482353B,
   0xA2BFE8A14CF10364, 0xA81A664BBC423001, 0xC24B8B70D0F89791, 0xC76C51A30654BE30,
   0xD192E819D6EF5218, 0xD69906245565A910, 0xF40E35855771202A, 0x106AA07032BBD1B8,
   0x19A4C116B8D2D0C8, 0x1E376C085141AB53, 0x2748774CDF8EEB99, 0x34B0BCB5E19B48A8,
   0x391C0CB3C5C95A63, 0x4ED8AA4AE3418ACB, 0x5B9CCA4F7763E373, 0x682E6FF3D6B2B8A3,
   0x748F82EE5DEFB2FC, 0x78A5636F43172F60, 0x84C87814A1F0AB72, 0x8CC702081A6439EC,
   0x90BEFFFA23631E28, 0xA4506CEBDE82BDE9, 0xBEF9A3F7B2C67915, 0xC67178F2E372532B,
   0xCA273ECEEA26619C, 0xD186B8C721C0C207, 0xEADA7DD6CDE0EB1E, 0xF57D4F7FEE6ED178,
   0x06F067AA72176FBA, 0x0A637DC5A2C898A6, 0x113F9804BEF90DAE, 0x1B710B35131C471B,
   0x28DB77F523047D84, 0x32CAAB7B40C72493, 0x3C9EBE0A15C9BEBC, 0x431D67C49C100D4C,
   0x4CC5D4BECB3E42B6, 0x597F299CFC657E2A, 0x5FCB6FAB3AD6FAEC, 0x6C44198C4A475817]

/-- Part of the model of `SHA512::hash`: rotation of a 64-bit word to the right. -/
def rotr (x n : Nat) : Nat := ((x >>> n) ||| (x <<< (64 - n))) % 2 ^ 64

/-- Part of the model of `SHA512::hash`: the choice function. -/
def Ch (x y z : Nat) : Nat := (x &&& y) ^^^ ((2 ^ 64 - 1 - x) &&& z)

/-- Part of the model of `SHA512::hash`: the majority function. -/
def Maj (x y z : Nat) : Nat := (x &&& y) ^^^ (x &&& z) ^^^ (y &&& z)

/-- Part of the model of `SHA512::hash`: the function Σ0 of the compression. -/
def bigSigma0 (x : Nat) : Nat := rotr x 28 ^^^ rotr x 34 ^^^ rotr x 39

/-- Part of the model of `SHA512::hash`: the function Σ1 of the compression. -/
def bigSigma1 (x : Nat) : Nat := rotr x 14 ^^^ rotr x 18 ^^^ rotr x 41

/-- Part of the model of `SHA512::hash`: the function σ0 of the message schedule. -/
def smallSigma0 (x : Nat) : Nat := rotr x 1 ^^^ rotr x 8 ^^^ (x >>> 7)

/-- Part of the model of `SHA512::hash`: the function σ1 of the message schedule. -/
def smallSigma1 (x : Nat) : Nat := rotr x 19 ^^^ rotr x 61 ^^^ (x >>> 6)

/-- Part of the model of `SHA512::hash`: the eight working words. -/
structure State where
  a : Nat
  b : Nat
  c : Nat
  d : Nat
  e : Nat
  f : Nat
  g : Nat
  h : Nat
  deriving DecidableEq, Repr

/-- Part of the model of `SHA512::hash`: the initial hash value of SHA-512. -/
def H0 : State :=
  ⟨0x6A09E667F3BCC908, 0xBB67AE8584CAA73B, 0x3C6EF372FE94F82B, 0xA54FF53A5F1D36F1,
   0x510E527FADE682D1, 0x9B05688C2B3E6C1F, 0x1F83D9ABFB41BD6B, 0x5BE0CD19137E2179⟩

/-- Part of the model of `SHA512::hash`: the padded message: the bytes, the byte `0x80`, zero
bytes up to 112 modulo 128, and the bit length as 16 big-endian bytes. -/
def pad (m : List Nat) : List Nat :=
  let l := m.length
  let k := (128 - (l + 17) % 128) % 128
  m ++ [0x80] ++ List.replicate k 0
    ++ (List.range 16).map (fun i => ((8 * l) >>> (8 * (15 - i))) &&& 0xFF)

/-- Part of the model of `SHA512::hash`: the big-endian word of a list of bytes. -/
def wordOf : List Nat → Nat
  | [] => 0
  | b :: bs => b * 2 ^ (8 * bs.length) + wordOf bs

/-- Part of the model of `SHA512::hash`: the first `n` 64-bit words of a list of bytes. -/
def words : Nat → List Nat → List Nat
  | 0, _ => []
  | n + 1, bs => wordOf (bs.take 8) :: words n (bs.drop 8)

/-- Part of the model of `SHA512::hash`: `n` more words of the message schedule; `rev` holds
the words so far, the newest first. -/
def extend : Nat → List Nat → List Nat
  | 0, rev => rev
  | n + 1, rev =>
    let w := (smallSigma1 (rev.getD 1 0) + rev.getD 6 0 + smallSigma0 (rev.getD 14 0)
      + rev.getD 15 0) % 2 ^ 64
    extend n (w :: rev)

/-- Part of the model of `SHA512::hash`: one round, with the round constant and the schedule
word. -/
def round (s : State) (kw : Nat × Nat) : State :=
  let t1 := (s.h + bigSigma1 s.e + Ch s.e s.f s.g + kw.1 + kw.2) % 2 ^ 64
  let t2 := (bigSigma0 s.a + Maj s.a s.b s.c) % 2 ^ 64
  ⟨(t1 + t2) % 2 ^ 64, s.a, s.b, s.c, (s.d + t1) % 2 ^ 64, s.e, s.f, s.g⟩

/-- Part of the model of `SHA512::hash`: the compression of one 128-byte block. -/
def compress (s : State) (block : List Nat) : State :=
  let w := (extend 64 (words 16 block).reverse).reverse
  let r := (K.zip w).foldl round s
  ⟨(s.a + r.a) % 2 ^ 64, (s.b + r.b) % 2 ^ 64, (s.c + r.c) % 2 ^ 64, (s.d + r.d) % 2 ^ 64,
   (s.e + r.e) % 2 ^ 64, (s.f + r.f) % 2 ^ 64, (s.g + r.g) % 2 ^ 64, (s.h + r.h) % 2 ^ 64⟩

/-- Part of the model of `SHA512::hash`: the compression of `n` blocks in turn. -/
def blocks : Nat → State → List Nat → State
  | 0, s, _ => s
  | n + 1, s, bs => blocks n (compress s (bs.take 128)) (bs.drop 128)

/-- Part of the model of `SHA512::hash`: the digest of a list of bytes. -/
def digest (m : List Nat) : State :=
  blocks ((pad m).length / 128) H0 (pad m)

/-- Part of the model of `SHA512::hash`: a lowercase hexadecimal digit. -/
def hexDigit (n : Nat) : Char := "0123456789abcdef".data.getD n '0'

/-- Part of the model of `SHA512::hash`: the 16 hexadecimal digits of a 64-bit word. -/
def hexWord (w : Nat) : List Char :=
  (List.range 16).map (fun i => hexDigit ((w >>> (4 * (15 - i))) &&& 0xF))

/-- Modelled from the spec: `SHA512::hash(str)` of `third_party/hashes/sha512.h` (not in the
sources): it "hashes the UTF-8 bytes of the decoded string, lowercase-hex-encodes"; the
hash is SHA-512. -/
def hash (str : String) : String :=
  let s := digest (utf8Bytes str)
  String.mk ([s.a, s.b, s.c, s.d, s.e, s.f, s.g, s.h].flatMap hexWord)

end SHA512

/-- What `eval` did: the value returned, the bindings the child expression was evaluated
on, in order, and the binding after the call. -/
structure EvalResult where
  value : ObjectId
  evaluated : List Binding
  binding : Binding

/-- The method `BindingExprSHA512::eval(binding)`; `expr` is the `eval` of the child, which
like this one takes the binding by `const` reference. -/
def BindingExprSHA512.eval (E : Env) (X : ExprEnv) (expr : Binding → ObjectId)
    (binding : Binding) : EvalResult :=
  let expr_oid := expr binding
  if get_sub_type E expr_oid = some .STRING_SIMPLE then
    let str := X.unpack_string_simple expr_oid
    let hash := SHA512.hash str
    ⟨pack_string_simple E X hash, [binding], binding⟩
  else
    ⟨get_null E, [binding], binding⟩

/-- The method `BindingExprTZ::eval(binding)`; `expr` is the `eval` of the child, which like
this one takes the binding by `const` reference. -/
def BindingExprTZ.eval (E : Env) (X : ExprEnv) (expr : Binding → ObjectId)
    (binding : Binding) : EvalResult :=
  let expr_oid := expr binding
  if get_generic_type E expr_oid ≠ some .DT then
    ⟨get_null E, [binding], binding⟩
  else
    let str := X.datetime_get_tz expr_oid
    ⟨pack_string_simple E X str, [binding], binding⟩

/-- A sample of the collaborators of the binding expressions, over `sampleEnv`. -/
def sampleExprEnv : ExprEnv where
  unpack_string_simple := fun oid =>
    match sampleCategory (oid &&& TYPE_MASK) with
    | some .STRING_SIMPLE_EXTERN => sampleEnv.string_manager_print (oid &&& VALUE_MASK)
    | some .STRING_SIMPLE_INLINED => sampleEnv.print_string_inlined 7 (oid &&& VALUE_MASK)
    | _ => sampleEnv.tmp_print_str (oid &&& VALUE_MASK)
  datetime_get_tz := fun oid => if oid &&& 1 = 0 then "Z" else "+01:00"
  inline_string := fun s => SHA512.wordOf (utf8Bytes s) % 2 ^ 56
  tmp_get_str_id := fun s => (utf8Bytes s).length % 2 ^ 56

/-! ## `NestedLoopJoin` (`src/query/executor/binding_iter/nested_loop_join.h`) -/

/-- The class `NestedLoopJoin`, through the members its constructor sets. A child iterator is
given by the rows its `next()` yields, as a function of the binding it is begun with; a row
is the content of the child's binding (`lhs_binding`, `rhs_binding`) after that `next()`. -/
structure NestedLoopJoin where
  lhs : Binding → List Binding
  original_rhs : Binding → List Binding
  safe_join_vars : List VarId
  unsafe_join_vars : List VarId
  parent_safe_vars : List VarId
  lhs_only_vars : List VarId
  rhs_only_vars : List VarId

/-- The members of `NestedLoopJoin` that change during an enumeration: the parent binding, the
rows `lhs->next()` still yields, the current lhs row (`none` when there is none), and the
rows `rhs->next()` still yields. The counters `result_count` and `executions`, kept for
`analyze`, are left out. -/
structure JoinState where
  parent_binding : Binding
  lhs_rest : List Binding
  lhs_binding : Option Binding
  rhs_rest : List Binding

namespace NestedLoopJoin

/-- The variables the lhs writes: its own and the join variables. -/
def lhs_owned (J : NestedLoopJoin) : List VarId :=
  J.lhs_only_vars ++ J.safe_join_vars ++ J.unsafe_join_vars

/-- Modelled from the spec: the join predicate of `NestedLoopJoin::next()` (its definition in
`nested_loop_join.cc` is not in the sources): "for every `v` in `safe_join_vars`, either one
side is `NULL` or the two `ObjectId`s are bit-equal; for every `v` in `unsafe_join_vars`, if
both bound they must be bit-equal". -/
def join_predicate (E : Env) (J : NestedLoopJoin) (l r : Binding) : Bool :=
  J.safe_join_vars.all (fun v => E.is_null (l v) || E.is_null (r v) || l v == r v)
  && J.unsafe_join_vars.all (fun v => !(!E.is_null (l v) && !E.is_null (r v)) || l v == r v)

/-- Modelled from the spec: step 2 of `NestedLoopJoin::next()` (not in the sources): "Copy
the lhs-owned variables into `parent_binding`". -/
def copy_lhs_owned (J : NestedLoopJoin) (l parent : Binding) : Binding :=
  fun v => if v ∈ J.lhs_owned then l v else parent v

/-- Modelled from the spec: the end of step 4 of `NestedLoopJoin::next()` (not in the
sources): "write rhs-owned variables into `parent_binding`": the variables of
`rhs_only_vars`, and the join variables that the lhs row leaves `NULL`. -/
def write_rhs_owned (E : Env) (J : NestedLoopJoin) (l r parent : Binding) : Binding :=
  fun v =>
    if v ∈ J.rhs_only_vars then r v
    else if v ∈ J.safe_join_vars ++ J.unsafe_join_vars ∧ E.is_null (l v) = true then r v
    else parent v

/-- Modelled from the spec: the start of step 5 of `NestedLoopJoin::next()` (not in the
sources): "clear rhs-only variables in `parent_binding` (set to NULL)". -/
def clear_rhs_only (E : Env) (J : NestedLoopJoin) (parent : Binding) : Binding :=
  fun v => if v ∈ J.rhs_only_vars then get_null E else parent v

/-- Modelled from the spec: step 4 of `NestedLoopJoin::next()` (not in the sources): "For
each rhs row, check the join predicate ... If the predicate holds, write rhs-owned variables
into `parent_binding` and return true"; `none` is the exhaustion of the rhs. -/
def scan_rhs (E : Env) (J : NestedLoopJoin) (l parent : Binding) :
    List Binding → Option (Binding × List Binding)
  | [] => none
  | r :: rest =>
    if join_predicate E J l r then some (write_rhs_owned E J l r parent, rest)
    else scan_rhs E J l parent rest

/-- Modelled from the spec: steps 1 to 5 of `NestedLoopJoin::next()` (not in the sources),
from the pull of the next lhs row: "pull one via `lhs->next()`; if exhausted, return false";
copy the lhs-owned variables; "re-begin the rhs against `parent_binding`"; scan the rhs; "on
rhs exhaustion, clear rhs-only variables in `parent_binding` (set to NULL), advance lhs, go
to step 2". -/
def advance (E : Env) (J : NestedLoopJoin) : List Binding → Binding → Bool × JoinState
  | [], parent => (false, ⟨parent, [], none, []⟩)
  | l :: lhs_rest, parent =>
    let parent := copy_lhs_owned J l parent
    match scan_rhs E J l parent (J.original_rhs parent) with
    | some (parent, rhs_rest) => (true, ⟨parent, lhs_rest, some l, rhs_rest⟩)
    | none => advance E J lhs_rest (clear_rhs_only E J parent)

/-- Modelled from the spec: `NestedLoopJoin::begin(parent_binding)` (not in the sources):
"store parent pointer; reset counters; call `lhs->begin(parent_binding)`"; the rhs is begun
when the lhs advances. -/
def begin (J : NestedLoopJoin) (parent_binding : Binding) : JoinState :=
  ⟨parent_binding, J.lhs parent_binding, none, []⟩

/-- Modelled from the spec: `NestedLoopJoin::next()` (not in the sources): with no current lhs
row, step 1; else the scan of the remaining rhs rows (step 4) and, on exhaustion, step 5. -/
def next (E : Env) (J : NestedLoopJoin) (st : JoinState) : Bool × JoinState :=
  match st.lhs_binding with
  | none => advance E J st.lhs_rest st.parent_binding
  | some l =>
    match scan_rhs E J l st.parent_binding st.rhs_rest with
    | some (parent, rhs_rest) => (true, ⟨parent, st.lhs_rest, some l, rhs_rest⟩)
    | none => advance E J st.lhs_rest (clear_rhs_only E J st.parent_binding)

/-- The rows of an enumeration: the parent binding after each `next()` that returns true, up
to the first `next()` that returns false; `none` when `next()` has not returned false within
`fuel` calls. -/
def drain (E : Env) (J : NestedLoopJoin) : Nat → JoinState → Option (List Binding)
  | 0, _ => none
  | fuel + 1, st =>
    match next E J st with
    | (false, _) => some []
    | (true, st2) => (drain E J fuel st2).map (fun rows => st2.parent_binding :: rows)

/-- The row for the pair of the lhs row `l` and the rhs row `r`: the parent binding with the
lhs-owned variables of `l` and the rhs-owned variables of `r` written into it. -/
def joined (E : Env) (J : NestedLoopJoin) (parent l r : Binding) : Binding :=
  write_rhs_owned E J l r (copy_lhs_owned J l parent)

/-- The rows for the pairs of the lhs rows `lhs_rows` and the rhs rows `rhs_rows` that satisfy
the join predicate, in lhs-major order. -/
def joinRows (E : Env) (J : NestedLoopJoin) (parent : Binding) (rhs_rows : List Binding)
    (lhs_rows : List Binding) : List Binding :=
  lhs_rows.flatMap (fun l =>
    (rhs_rows.filter (join_predicate E J l)).map (joined E J parent l))

/-- Two parent bindings agree on every variable the join does not write. -/
def Agree (J : NestedLoopJoin) (p q : Binding) : Prop :=
  ∀ v, v ∉ J.lhs_owned → v ∉ J.rhs_only_vars → p v = q v

/-- The rows still to come from a state of an enumeration begun with the binding `parent`,
when the rhs yields the rows `rhs_rows`. -/
def remaining (E : Env) (J : NestedLoopJoin) (parent : Binding) (rhs_rows : List Binding)
    (st : JoinState) : List Binding :=
  match st.lhs_binding with
  | none => joinRows E J parent rhs_rows st.lhs_rest
  | some l =>
    (st.rhs_rest.filter (join_predicate E J l)).map (joined E J parent l)
      ++ joinRows E J parent rhs_rows st.lhs_rest

/-- The invariant of an enumeration begun with the binding `parent`: the parent binding is
as at the start outside the variables the join writes, and with a current lhs row, writing
the rhs-owned variables of a row gives the row of the pair. -/
def Invariant (E : Env) (J : NestedLoopJoin) (parent : Binding) (st : JoinState) : Prop :=
  Agree J st.parent_binding parent
  ∧ ∀ l, st.lhs_binding = some l →
      ∀ r, write_rhs_owned E J l r st.parent_binding = joined E J parent l r

end NestedLoopJoin

/-- The row of the scenarios with `?a`, `?b`, `?c` (variables 0, 1, 2) bound to the given
words and every other variable `NULL`. -/
def sampleRow (a b c : ObjectId) : Binding :=
  fun v => if v = 0 then a else if v = 1 then b else if v = 2 then c else 0

/-- The join of the scenarios: lhs rows `{?a=1, ?b=2}`, `{?a=3, ?b=4}`, rhs rows
`{?b=2, ?c=5}`, `{?b=9, ?c=6}`, the values being `POSITIVE_INT` words, with the given join
variables. -/
def sampleJoin (safe_join_vars unsafe_join_vars : List VarId) : NestedLoopJoin where
  lhs := fun _ => [sampleRow 0x0900000000000001 0x0900000000000002 0,
                   sampleRow 0x0900000000000003 0x0900000000000004 0]
  original_rhs := fun _ => [sampleRow 0 0x0900000000000002 0x0900000000000005,
                            sampleRow 0 0x0900000000000009 0x0900000000000006]
  safe_join_vars := safe_join_vars
  unsafe_join_vars := unsafe_join_vars
  parent_safe_vars := []
  lhs_only_vars := [0]
  rhs_only_vars := [2]

/-- The twelve string-literal categories: `STRING_SIMPLE`, `STRING_XSD`, `STRING_DATATYPE` and
`STRING_LANG`, each `EXTERN`, `INLINED` or `TMP`. -/
def Category.isStringLiteral : Category → Bool
  | .STRING_SIMPLE_EXTERN | .STRING_SIMPLE_INLINED | .STRING_SIMPLE_TMP => true
  | .STRING_XSD_EXTERN | .STRING_XSD_INLINED | .STRING_XSD_TMP => true
  | .STRING_DATATYPE_EXTERN | .STRING_DATATYPE_INLINED | .STRING_DATATYPE_TMP => true
  | .STRING_LANG_EXTERN | .STRING_LANG_INLINED | .STRING_LANG_TMP => true
  | _ => false

/-- The integer that the `NEGATIVE_INT` case of `print` renders: `i * -1` for
`i = (~object_id.id) & 0x00FFFFFFFFFFFFFF`. -/
def negativeIntValue (object_id : ObjectId) : Int :=
  wrapInt64 (toInt64 (not64 object_id &&& 0x00FFFFFFFFFFFFFF) * -1)

/-! ## Bit arithmetic -/

theorem testBit_two_pow_sub_two_pow (lo hi i : Nat) (h : lo ≤ hi) :
    (2 ^ hi - 2 ^ lo).testBit i = (decide (i < hi) && !decide (i < lo)) := by
  have hpos : 0 < 2 ^ lo := Nat.two_pow_pos lo
  have hle : 2 ^ lo ≤ 2 ^ hi := Nat.pow_le_pow_right (by decide) h
  have hlt : 2 ^ lo - 1 < 2 ^ hi := by omega
  have heq : 2 ^ hi - 2 ^ lo = 2 ^ hi - (2 ^ lo - 1 + 1) := by omega
  rw [heq, Nat.testBit_two_pow_sub_succ hlt, Nat.testBit_two_pow_sub_one]

theorem and_field_shiftRight (x lo hi : Nat) (h : lo ≤ hi) :
    (x &&& (2 ^ hi - 2 ^ lo)) >>> lo = x / 2 ^ lo % 2 ^ (hi - lo) := by
  apply Nat.eq_of_testBit_eq
  intro j
  rw [Nat.testBit_shiftRight, Nat.testBit_and, testBit_two_pow_sub_two_pow _ _ _ h,
    Nat.testBit_mod_two_pow, ← Nat.shiftRight_eq_div_pow, Nat.testBit_shiftRight]
  by_cases hj : j < hi - lo
  · have h1 : lo + j < hi := by omega
    have h2 : ¬ lo + j < lo := by omega
    simp [hj, h1, h2]
  · have h1 : ¬ lo + j < hi := by omega
    simp [hj, h1]

theorem and_VALUE_MASK (x : Nat) : x &&& VALUE_MASK = x % 2 ^ 56 :=
  Nat.and_pow_two_sub_one_eq_mod x 56

theorem and_MASK_IRI_CONTENT (x : Nat) : x &&& MASK_IRI_CONTENT = x % 2 ^ 48 :=
  Nat.and_pow_two_sub_one_eq_mod x 48

theorem and_MASK_LITERAL (x : Nat) : x &&& MASK_LITERAL = x % 2 ^ 40 :=
  Nat.and_pow_two_sub_one_eq_mod x 40

theorem and_MASK_IRI_PREFIX_shiftRight (x : Nat) :
    (x &&& MASK_IRI_PREFIX) >>> 48 = x / 2 ^ 48 % 2 ^ 8 :=
  and_field_shiftRight x 48 56 (by decide)

theorem and_MASK_LITERAL_TAG_shiftRight (x : Nat) :
    (x &&& MASK_LITERAL_TAG) >>> 40 = x / 2 ^ 40 % 2 ^ 16 :=
  and_field_shiftRight x 40 56 (by decide)

theorem not64_and_payload (x : Nat) :
    not64 x &&& 0x00FFFFFFFFFFFFFF = 2 ^ 56 - 1 - x % 2 ^ 56 := by
  have h := Nat.and_pow_two_sub_one_eq_mod (not64 x) 56
  have h2 : not64 x % 2 ^ 56 = 2 ^ 56 - 1 - x % 2 ^ 56 := by
    unfold not64
    omega
  exact h.trans h2

/-! ## The switch -/

theorem mem_caseLabels (c : Category) : c ∈ Category.caseLabels := by
  cases c <;> simp [Category.caseLabels]

theorem switchCase_eq_none (E : Env) (mask : Nat) :
    switchCase E mask = none ↔ ∀ c, E.mask c ≠ mask := by
  unfold switchCase
  rw [List.find?_eq_none]
  constructor
  · intro h c
    simpa using h c (mem_caseLabels c)
  · intro h c _
    simpa using h c

theorem switchCase_some (E : Env) (mask : Nat) (c : Category)
    (h : switchCase E mask = some c) : E.mask c = mask := by
  unfold switchCase at h
  simpa using List.find?_some h

theorem switchCase_mask (E : Env) (hinj : Function.Injective E.mask) (c : Category) :
    switchCase E (E.mask c) = some c := by
  cases c <;> simp [switchCase, Category.caseLabels, List.find?, hinj.eq_iff]

theorem print_eq_printWith (E : Env) (depth : Nat) (object_id : ObjectId) :
    print E depth object_id = printWith E (nestedPrint E depth) object_id := by
  cases depth <;> rfl

theorem sampleCategory_sampleMask (c : Category) : sampleCategory (sampleMask c) = some c := by
  cases c <;> rfl

theorem sampleMask_injective : Function.Injective sampleEnv.mask := by
  intro a b h
  have h2 : sampleCategory (sampleMask a) = sampleCategory (sampleMask b) :=
    congrArg sampleCategory h
  rw [sampleCategory_sampleMask, sampleCategory_sampleMask] at h2
  exact Option.some.inj h2

theorem toInt64_of_lt (x : Nat) (h : x < 2 ^ 63) : toInt64 x = (x : Int) := by
  unfold toInt64
  have h1 : x % 2 ^ 64 = x := Nat.mod_eq_of_lt (by omega)
  rw [h1, if_pos h]

theorem wrapInt64_neg_of_lt (i : Int) (h0 : 0 ≤ i) (h1 : i < 2 ^ 63) :
    wrapInt64 (i * -1) = -i := by
  unfold wrapInt64
  omega

theorem and_VALUE_MASK_lt (x : Nat) : x &&& VALUE_MASK < 2 ^ 63 := by
  rw [and_VALUE_MASK]
  omega

theorem not64_and_payload_lt (x : Nat) : not64 x &&& 0x00FFFFFFFFFFFFFF < 2 ^ 63 := by
  rw [not64_and_payload]
  omega

theorem neg_payload_range (x : Nat) :
    -(2 ^ 56 - 1 : Int) ≤ -((not64 x &&& 0x00FFFFFFFFFFFFFF : Nat) : Int)
    ∧ -((not64 x &&& 0x00FFFFFFFFFFFFFF : Nat) : Int) ≤ 0 := by
  rw [not64_and_payload]
  omega

theorem iri_prefix_of_payload (x : Nat) :
    ((x &&& VALUE_MASK) &&& MASK_IRI_PREFIX) >>> 48 = x / 2 ^ 48 % 256 := by
  rw [and_MASK_IRI_PREFIX_shiftRight, and_VALUE_MASK]
  omega

theorem iri_content_of_payload (x : Nat) :
    (x &&& VALUE_MASK) &&& MASK_IRI_CONTENT = x % 2 ^ 48 := by
  rw [and_MASK_IRI_CONTENT, and_VALUE_MASK]
  omega

theorem payload_mod_48 (x : Nat) : (x &&& VALUE_MASK) % 2 ^ 48 = x % 2 ^ 48 := by
  rw [and_VALUE_MASK]
  omega

theorem literal_tag_of_payload (x : Nat) :
    ((x &&& VALUE_MASK) &&& MASK_LITERAL_TAG) >>> 40 = x / 2 ^ 40 % 65536 := by
  rw [and_MASK_LITERAL_TAG_shiftRight, and_VALUE_MASK]
  omega

theorem literal_tag_of_word (x : Nat) :
    (x &&& MASK_LITERAL_TAG) >>> 40 = x / 2 ^ 40 % 65536 :=
  and_MASK_LITERAL_TAG_shiftRight x

theorem literal_of_payload (x : Nat) :
    (x &&& VALUE_MASK) &&& MASK_LITERAL = x % 2 ^ 40 := by
  rw [and_MASK_LITERAL, and_VALUE_MASK]
  omega

theorem and_MASK_TAG_MANAGER (d : Nat) :
    d &&& MASK_TAG_MANAGER = if d / 2 ^ 15 % 2 = 1 then 2 ^ 15 else 0 := by
  have h := Nat.and_two_pow d 15
  rw [Nat.testBit_to_div_mod] at h
  show d &&& 2 ^ 15 = _
  rw [h]
  by_cases hb : d / 2 ^ 15 % 2 = 1
  · rw [if_pos hb, decide_eq_true hb]
    rfl
  · rw [if_neg hb, decide_eq_false hb]
    rfl

theorem testBit_not64_MASK_TAG_MANAGER (i : Nat) :
    (not64 MASK_TAG_MANAGER).testBit i = (decide (i < 64) && !decide (15 = i)) := by
  have h : not64 MASK_TAG_MANAGER = 2 ^ 64 - (2 ^ 15 + 1) := by decide
  rw [h, Nat.testBit_two_pow_sub_succ (by decide), Nat.testBit_two_pow]

theorem and_not64_MASK_TAG_MANAGER (d : Nat) (hd : d < 2 ^ 16) :
    d &&& not64 MASK_TAG_MANAGER = d % 2 ^ 15 := by
  apply Nat.eq_of_testBit_eq
  intro i
  rw [Nat.testBit_and, testBit_not64_MASK_TAG_MANAGER, Nat.testBit_mod_two_pow]
  by_cases h15 : i < 15
  · have h1 : i < 64 := by omega
    have h2 : ¬ 15 = i := by omega
    simp [h15, h1, h2]
  · by_cases h16 : i = 15
    · simp [h16]
    · have hlt : d < 2 ^ i := by
        have hle : 2 ^ 16 ≤ 2 ^ i := Nat.pow_le_pow_right (by decide) (by omega)
        omega
      simp [h15, Nat.testBit_lt_two_pow hlt]

theorem not64_MASK_TAG_MANAGER_and (d : Nat) :
    (d &&& not64 MASK_TAG_MANAGER) &&& MASK_TAG_MANAGER = 0 := by
  rw [Nat.and_assoc]
  have h : not64 MASK_TAG_MANAGER &&& MASK_TAG_MANAGER = 0 := by decide
  rw [h, Nat.and_zero]

theorem digitChar_isDigit (n : Nat) (h : n < 10) : (Nat.digitChar n).isDigit = true := by
  interval_cases n <;> decide

theorem toDigitsCore_isDigit :
    ∀ (fuel n : Nat) (ds : List Char), (∀ c ∈ ds, c.isDigit = true) →
      ∀ c ∈ Nat.toDigitsCore 10 fuel n ds, c.isDigit = true
  | 0, _, ds, h => by
    simpa [Nat.toDigitsCore] using h
  | fuel + 1, n, ds, h => by
    have hd : (Nat.digitChar (n % 10)).isDigit = true :=
      digitChar_isDigit _ (Nat.mod_lt _ (by decide))
    have hds : ∀ c ∈ Nat.digitChar (n % 10) :: ds, c.isDigit = true := by
      intro c hc
      rcases List.mem_cons.1 hc with rfl | hc
      · exact hd
      · exact h c hc
    unfold Nat.toDigitsCore
    by_cases hz : n / 10 = 0
    · simpa [hz] using hds
    · simp only [hz, if_false]
      exact toDigitsCore_isDigit fuel (n / 10) _ hds

theorem toString_nat_isDigit (n : Nat) : ∀ c ∈ (toString n).data, c.isDigit = true :=
  toDigitsCore_isDigit (n + 1) n [] (by simp)

/-! ## Integers -/

/-- C6: for an `ObjectId` tagged `POSITIVE_INT`, `print` writes the base-10 text of the payload,
decimal digits only, and nothing else (payload 42 prints as `42`); for one tagged `NEGATIVE_INT` it writes the
base-10 text of `-((~id) & 0x00FFFFFFFFFFFFFF)`, which is `-(2^56 - 1 - p)` for the payload
`p`, lies in `[-(2^56 - 1), 0]`, and is computed without `int64_t` overflow. -/
theorem print_int_decimal (E : Env) (hinj : Function.Injective E.mask) (depth : Nat)
    (object_id : ObjectId) :
    (object_id &&& TYPE_MASK = E.mask .POSITIVE_INT →
      print E depth object_id = done [raw (toString (object_id &&& VALUE_MASK))]
      ∧ (∀ c ∈ (toString (object_id &&& VALUE_MASK)).data, c.isDigit = true)
      ∧ toInt64 (object_id &&& VALUE_MASK) = ((object_id &&& VALUE_MASK : Nat) : Int)
      ∧ (object_id &&& VALUE_MASK = 42 → print E depth object_id = done [raw "42"]))
    ∧ (object_id &&& TYPE_MASK = E.mask .NEGATIVE_INT →
      print E depth object_id
        = done [raw (toString (-((not64 object_id &&& 0x00FFFFFFFFFFFFFF : Nat) : Int)))]
      ∧ not64 object_id &&& 0x00FFFFFFFFFFFFFF = 2 ^ 56 - 1 - (object_id &&& VALUE_MASK)
      ∧ -(2 ^ 56 - 1 : Int) ≤ -((not64 object_id &&& 0x00FFFFFFFFFFFFFF : Nat) : Int)
      ∧ -((not64 object_id &&& 0x00FFFFFFFFFFFFFF : Nat) : Int) ≤ 0
      ∧ toInt64 (not64 object_id &&& 0x00FFFFFFFFFFFFFF)
          = ((not64 object_id &&& 0x00FFFFFFFFFFFFFF : Nat) : Int)
      ∧ wrapInt64 (toInt64 (not64 object_id &&& 0x00FFFFFFFFFFFFFF) * -1)
          = toInt64 (not64 object_id &&& 0x00FFFFFFFFFFFFFF) * -1) := by
  have hp : object_id &&& VALUE_MASK < 2 ^ 63 := and_VALUE_MASK_lt object_id
  have hn : not64 object_id &&& 0x00FFFFFFFFFFFFFF < 2 ^ 63 := not64_and_payload_lt object_id
  constructor
  · intro h
    have hc : switchCase E (object_id &&& TYPE_MASK) = some .POSITIVE_INT := by
      rw [h]
      exact switchCase_mask E hinj _
    have hpr : print E depth object_id = done [raw (toString (object_id &&& VALUE_MASK))] := by
      rw [print_eq_printWith]
      unfold printWith
      simp only [hc, toInt64_of_lt _ hp]
      rfl
    refine ⟨hpr, toString_nat_isDigit _, toInt64_of_lt _ hp, ?_⟩
    intro h42
    rw [hpr, h42]
    rfl
  · intro h
    have hc : switchCase E (object_id &&& TYPE_MASK) = some .NEGATIVE_INT := by
      rw [h]
      exact switchCase_mask E hinj _
    have h0 : (0 : Int) ≤ ((not64 object_id &&& 0x00FFFFFFFFFFFFFF : Nat) : Int) :=
      Int.ofNat_nonneg _
    have hw := wrapInt64_neg_of_lt ((not64 object_id &&& 0x00FFFFFFFFFFFFFF : Nat) : Int) h0
      (by exact_mod_cast hn)
    refine ⟨?_, ?_, ?_, ?_, toInt64_of_lt _ hn, ?_⟩
    · rw [print_eq_printWith]
      unfold printWith
      simp only [hc, toInt64_of_lt _ hn, hw]
    · rw [not64_and_payload, and_VALUE_MASK]
    · exact (neg_payload_range object_id).1
    · exact (neg_payload_range object_id).2
    · rw [toInt64_of_lt _ hn, hw]
      ring

/-- Witness of C6: payload 42 prints as `42`, and the `NEGATIVE_INT` payload
`2^56 - 1 - 42` prints as `-42`. -/
theorem print_int_decimal_witness :
    print sampleEnv 0 0x090000000000002A = done [raw "42"]
    ∧ print sampleEnv 0 0x0AFFFFFFFFFFFFD5
        = done [raw (toString (-((not64 0x0AFFFFFFFFFFFFD5 &&& 0x00FFFFFFFFFFFFFF : Nat) : Int)))] :=
  ⟨((print_int_decimal sampleEnv sampleMask_injective 0 0x090000000000002A).1
      (by decide)).2.2.2 (by decide),
   ((print_int_decimal sampleEnv sampleMask_injective 0 0x0AFFFFFFFFFFFFD5).2
      (by decide)).1⟩

/-! ## Booleans -/

/-- C10: for an `ObjectId` tagged `BOOL`, `print` writes `false` followed by
`^^<http://www.w3.org/2001/XMLSchema#boolean>` when the payload is 0 and `true` followed by
the same suffix for every other payload; both go to the raw stream, and no other output is
possible. -/
theorem print_bool (E : Env) (hinj : Function.Injective E.mask) (depth : Nat)
    (object_id : ObjectId) (h : object_id &&& TYPE_MASK = E.mask .BOOL) :
    (object_id &&& VALUE_MASK = 0 →
      print E depth object_id
        = done [raw "false", raw "^^<http://www.w3.org/2001/XMLSchema#boolean>"]
      ∧ render E.escape (print E depth object_id).writes
        = "false^^<http://www.w3.org/2001/XMLSchema#boolean>")
    ∧ (object_id &&& VALUE_MASK ≠ 0 →
      print E depth object_id
        = done [raw "true", raw "^^<http://www.w3.org/2001/XMLSchema#boolean>"]
      ∧ render E.escape (print E depth object_id).writes
        = "true^^<http://www.w3.org/2001/XMLSchema#boolean>")
    ∧ (render E.escape (print E depth object_id).writes
        = "false^^<http://www.w3.org/2001/XMLSchema#boolean>"
      ∨ render E.escape (print E depth object_id).writes
        = "true^^<http://www.w3.org/2001/XMLSchema#boolean>") := by
  have hc : switchCase E (object_id &&& TYPE_MASK) = some .BOOL := by
    rw [h]
    exact switchCase_mask E hinj _
  have hpr : print E depth object_id
      = done [raw (if get_value object_id = 0 then "false" else "true"),
              raw "^^<http://www.w3.org/2001/XMLSchema#boolean>"] := by
    rw [print_eq_printWith]
    unfold printWith
    simp only [hc]
  have h0 : ∀ hz : object_id &&& VALUE_MASK = 0,
      print E depth object_id
        = done [raw "false", raw "^^<http://www.w3.org/2001/XMLSchema#boolean>"] := by
    intro hz
    rw [hpr, get_value, if_pos hz]
  have h1 : ∀ hz : object_id &&& VALUE_MASK ≠ 0,
      print E depth object_id
        = done [raw "true", raw "^^<http://www.w3.org/2001/XMLSchema#boolean>"] := by
    intro hz
    rw [hpr, get_value, if_neg hz]
  refine ⟨fun hz => ⟨h0 hz, ?_⟩, fun hz => ⟨h1 hz, ?_⟩, ?_⟩
  · rw [h0 hz]
    rfl
  · rw [h1 hz]
    rfl
  · by_cases hz : object_id &&& VALUE_MASK = 0
    · left
      rw [h0 hz]
      rfl
    · right
      rw [h1 hz]
      rfl

/-- Witness of C10: the `BOOL` with payload 1 prints as `true` with the boolean datatype. -/
theorem print_bool_witness :
    print sampleEnv 0 0x0E00000000000001
      = done [raw "true", raw "^^<http://www.w3.org/2001/XMLSchema#boolean>"]
    ∧ render sampleEnv.escape (print sampleEnv 0 0x0E00000000000001).writes
      = "true^^<http://www.w3.org/2001/XMLSchema#boolean>" :=
  (print_bool sampleEnv sampleMask_injective 0 0x0E00000000000001 (by decide)).2.1 (by decide)

/-! ## IRIs -/

/-- C9: for an `ObjectId` of an IRI category, `print` writes `<`, the catalog prefix with id
`p`, the local part and `>`, all to the raw stream; in the three variants `p` is bits 48..55
of the word, a value below 256; the local part is the string the string manager (`EXTERN`) or
the temp manager (`TMP`) holds for the low 48 bits, and for `INLINED` the string the inliner
decodes with a budget of 6 bytes, which is that of the low 48 bits when the inliner reads
no more than its 6 bytes. -/
theorem print_iri (E : Env) (hinj : Function.Injective E.mask) (depth : Nat)
    (object_id : ObjectId) :
    (object_id &&& TYPE_MASK = E.mask .IRI_EXTERN →
      print E depth object_id
        = done [raw "<", raw (E.prefixes (object_id / 2 ^ 48 % 256)),
                raw (E.string_manager_print (object_id % 2 ^ 48)), raw ">"])
    ∧ (object_id &&& TYPE_MASK = E.mask .IRI_INLINED →
      print E depth object_id
        = done [raw "<", raw (E.prefixes (object_id / 2 ^ 48 % 256)),
                raw (E.print_string_inlined 6 (object_id &&& VALUE_MASK)), raw ">"]
      ∧ ((∀ x, E.print_string_inlined 6 x = E.print_string_inlined 6 (x % 2 ^ 48)) →
          E.print_string_inlined 6 (object_id &&& VALUE_MASK)
            = E.print_string_inlined 6 (object_id % 2 ^ 48)))
    ∧ (object_id &&& TYPE_MASK = E.mask .IRI_TMP →
      print E depth object_id
        = done [raw "<", raw (E.prefixes (object_id / 2 ^ 48 % 256)),
                raw (E.tmp_print_str (object_id % 2 ^ 48)), raw ">"])
    ∧ object_id / 2 ^ 48 % 256 < 256
    ∧ object_id / 2 ^ 48 % 256 = ((object_id &&& VALUE_MASK) &&& MASK_IRI_PREFIX) >>> 48
    ∧ object_id / 2 ^ 48 % 256 = (object_id &&& MASK_IRI_PREFIX) >>> 48 := by
  have hpre : ((object_id &&& VALUE_MASK) &&& MASK_IRI_PREFIX) >>> 48
      = object_id / 2 ^ 48 % 256 := iri_prefix_of_payload object_id
  have hpre2 : (object_id &&& MASK_IRI_PREFIX) >>> 48 = object_id / 2 ^ 48 % 256 :=
    and_MASK_IRI_PREFIX_shiftRight object_id
  have hloc : (object_id &&& VALUE_MASK) &&& MASK_IRI_CONTENT = object_id % 2 ^ 48 :=
    iri_content_of_payload object_id
  have hmod : object_id / 2 ^ 48 % 256 % 2 ^ 8 = object_id / 2 ^ 48 % 256 :=
    Nat.mod_mod _ _
  refine ⟨?_, ?_, ?_, Nat.mod_lt _ (by decide), hpre.symm, hpre2.symm⟩
  · intro h
    have hc : switchCase E (object_id &&& TYPE_MASK) = some .IRI_EXTERN := by
      rw [h]
      exact switchCase_mask E hinj _
    rw [print_eq_printWith]
    unfold printWith
    simp only [hc, hpre, hloc, hmod]
  · intro h
    have hc : switchCase E (object_id &&& TYPE_MASK) = some .IRI_INLINED := by
      rw [h]
      exact switchCase_mask E hinj _
    constructor
    · rw [print_eq_printWith]
      unfold printWith
      simp only [hc, IRI_INLINE_BYTES, hpre2, hmod]
    · intro hinl
      rw [hinl (object_id &&& VALUE_MASK), payload_mod_48 object_id]
  · intro h
    have hc : switchCase E (object_id &&& TYPE_MASK) = some .IRI_TMP := by
      rw [h]
      exact switchCase_mask E hinj _
    rw [print_eq_printWith]
    unfold printWith
    simp only [hc, hpre, hloc, hmod]

/-- Witness of C9: an inlined IRI with prefix id 1. -/
theorem print_iri_witness :
    print sampleEnv 0 0x11016B6E6F777300
      = done [raw "<", raw (sampleEnv.prefixes (0x11016B6E6F777300 / 2 ^ 48 % 256)),
              raw (sampleEnv.print_string_inlined 6 (0x11016B6E6F777300 &&& VALUE_MASK)),
              raw ">"] :=
  ((print_iri sampleEnv sampleMask_injective 0 0x11016B6E6F777300).2.1 (by decide)).1

/-! ## Simple and `xsd:string` strings -/

/-- C8: for an `ObjectId` of a `STRING_SIMPLE` category `print` writes a quote to the raw
stream, the string to the escaping stream and a quote to the raw stream, so that the output
is the quoted escaped string; for a `STRING_XSD` category the closing quote is followed, on
the raw stream, by `^^<http://www.w3.org/2001/XMLSchema#string>`. With the projection `?x`
and one row binding `?x` to the inlined simple string `hi`, `execute` writes the header `x`
and the body `"hi"`, each followed by a newline. -/
theorem print_string_simple_xsd (E : Env) (hinj : Function.Injective E.mask) (depth : Nat)
    (object_id : ObjectId) :
    (object_id &&& TYPE_MASK = E.mask .STRING_SIMPLE_EXTERN →
      print E depth object_id
        = done [raw "\"", esc (E.string_manager_print (object_id &&& VALUE_MASK)), raw "\""])
    ∧ (object_id &&& TYPE_MASK = E.mask .STRING_SIMPLE_INLINED →
      print E depth object_id
        = done [raw "\"", esc (E.print_string_inlined 7 (object_id &&& VALUE_MASK)), raw "\""])
    ∧ (object_id &&& TYPE_MASK = E.mask .STRING_SIMPLE_TMP →
      print E depth object_id
        = done [raw "\"", esc (E.tmp_print_str (object_id &&& VALUE_MASK)), raw "\""])
    ∧ (object_id &&& TYPE_MASK = E.mask .STRING_XSD_EXTERN →
      print E depth object_id
        = done [raw "\"", esc (E.string_manager_print (object_id &&& VALUE_MASK)),
                raw "\"^^<http://www.w3.org/2001/XMLSchema#string>"])
    ∧ (object_id &&& TYPE_MASK = E.mask .STRING_XSD_INLINED →
      print E depth object_id
        = done [raw "\"", esc (E.print_string_inlined 7 (object_id &&& VALUE_MASK)),
                raw "\"^^<http://www.w3.org/2001/XMLSchema#string>"])
    ∧ (object_id &&& TYPE_MASK = E.mask .STRING_XSD_TMP →
      print E depth object_id
        = done [raw "\"", esc (E.tmp_print_str (object_id &&& VALUE_MASK)),
                raw "\"^^<http://www.w3.org/2001/XMLSchema#string>"])
    ∧ (∀ s, render E.escape [raw "\"", esc s, raw "\""] = "\"" ++ E.escape s ++ "\"")
    ∧ (∀ s, render E.escape [raw "\"", esc s,
                             raw "\"^^<http://www.w3.org/2001/XMLSchema#string>"]
        = "\"" ++ E.escape s ++ "\"^^<http://www.w3.org/2001/XMLSchema#string>")
    ∧ (∀ (x : VarId) (binding : Binding), binding x = object_id →
        object_id &&& TYPE_MASK = E.mask .STRING_SIMPLE_INLINED →
        E.print_string_inlined 7 (object_id &&& VALUE_MASK) = "hi" →
        E.is_null object_id = false → E.escape "hi" = "hi" → E.get_var_name x = "x" →
        (execute E depth [x] [binding]).os = "x\n\"hi\"\n") := by
  have key : ∀ c : Category, object_id &&& TYPE_MASK = E.mask c →
      switchCase E (object_id &&& TYPE_MASK) = some c := by
    intro c h
    rw [h]
    exact switchCase_mask E hinj c
  have hinl : object_id &&& TYPE_MASK = E.mask .STRING_SIMPLE_INLINED →
      print E depth object_id
        = done [raw "\"", esc (E.print_string_inlined 7 (object_id &&& VALUE_MASK)),
                raw "\""] := by
    intro h
    rw [print_eq_printWith]
    unfold printWith
    simp only [key _ h]
  refine ⟨?_, hinl, ?_, ?_, ?_, ?_, ?_, ?_, ?_⟩
  · intro h
    rw [print_eq_printWith]
    unfold printWith
    simp only [key _ h]
  · intro h
    rw [print_eq_printWith]
    unfold printWith
    simp only [key _ h]
  · intro h
    rw [print_eq_printWith]
    unfold printWith
    simp only [key _ h]
  · intro h
    rw [print_eq_printWith]
    unfold printWith
    simp only [key _ h]
  · intro h
    rw [print_eq_printWith]
    unfold printWith
    simp only [key _ h]
  · intro s
    simp [render, raw, esc, String.append_assoc]
  · intro s
    simp [render, raw, esc, String.append_assoc]
  · intro x binding hb htag hstr hnull hesc hname
    simp only [execute, header_rest, execute_rows, execute_row, row_loop, hb, hnull, hinl htag,
      hstr, hname, done, render, raw, esc, hesc]
    rfl

/-- Witness of C8: the inlined simple string `hi` under the projection `?x`. -/
theorem print_string_simple_xsd_witness :
    (execute sampleEnv 0 [0] [fun _ => 0x0468690000000000]).os = "x\n\"hi\"\n" :=
  (print_string_simple_xsd sampleEnv sampleMask_injective 0 0x0468690000000000).2.2.2.2.2.2.2.2
    0 (fun _ => 0x0468690000000000) rfl (by decide) (by decide) (by decide) (by decide)
    (by decide)

/-! ## Datatype and language suffixes -/

/-- C7: for a 16-bit id `d`, `print_datatype_rdf_tsv` writes `^^<`, the IRI and `>`, and
`print_language_rdf_tsv` writes `@` and the tag; the IRI or tag is entry `d` of the catalog
table when the `MASK_TAG_MANAGER` bit of `d` is clear, and the temp manager's entry for `d`
with that bit removed when it is set; neither index has the bit set. The ids `print` hands
over for the datatype and language string categories are the 16 bits 40..55 of the word. -/
theorem print_datatype_language_suffix (E : Env) (hinj : Function.Injective E.mask)
    (d : Nat) (hd : d < 2 ^ 16) :
    (d &&& MASK_TAG_MANAGER = 0 →
      print_datatype_rdf_tsv E d = "^^<" ++ E.datatypes d ++ ">"
      ∧ print_language_rdf_tsv E d = "@" ++ E.languages d
      ∧ d < 2 ^ 15)
    ∧ (d &&& MASK_TAG_MANAGER ≠ 0 →
      print_datatype_rdf_tsv E d = "^^<" ++ E.tmp_print_dtt (d - 0x8000) ++ ">"
      ∧ print_language_rdf_tsv E d = "@" ++ E.tmp_print_lan (d - 0x8000)
      ∧ d &&& not64 MASK_TAG_MANAGER = d - 0x8000
      ∧ 0x8000 ≤ d
      ∧ (d - 0x8000) &&& MASK_TAG_MANAGER = 0
      ∧ d - 0x8000 < 2 ^ 15)
    ∧ (∀ (depth : Nat) (object_id : ObjectId), object_id / 2 ^ 40 % 65536 = d →
      (object_id &&& TYPE_MASK = E.mask .STRING_DATATYPE_INLINED →
        print E depth object_id
          = done [raw "\"", esc (E.print_string_inlined 5 (object_id &&& VALUE_MASK)),
                  raw "\"", raw (print_datatype_rdf_tsv E d)])
      ∧ (object_id &&& TYPE_MASK = E.mask .STRING_DATATYPE_EXTERN →
        print E depth object_id
          = done [raw "\"", esc (E.string_manager_print (object_id % 2 ^ 40)),
                  raw "\"", raw (print_datatype_rdf_tsv E d)])
      ∧ (object_id &&& TYPE_MASK = E.mask .STRING_DATATYPE_TMP →
        print E depth object_id
          = done [raw "\"", esc (E.tmp_print_str (object_id % 2 ^ 40)),
                  raw "\"", raw (print_datatype_rdf_tsv E d)])
      ∧ (object_id &&& TYPE_MASK = E.mask .STRING_LANG_INLINED →
        print E depth object_id
          = done [raw "\"", esc (E.print_string_inlined 5 (object_id &&& VALUE_MASK)),
                  raw "\"", raw (print_language_rdf_tsv E d)])
      ∧ (object_id &&& TYPE_MASK = E.mask .STRING_LANG_EXTERN →
        print E depth object_id
          = done [raw "\"", esc (E.string_manager_print (object_id % 2 ^ 40)),
                  raw "\"", raw (print_language_rdf_tsv E d)])
      ∧ (object_id &&& TYPE_MASK = E.mask .STRING_LANG_TMP →
        print E depth object_id
          = done [raw "\"", esc (E.tmp_print_str (object_id % 2 ^ 40)),
                  raw "\"", raw (print_language_rdf_tsv E d)])) := by
  have hbit := and_MASK_TAG_MANAGER d
  have hrem := and_not64_MASK_TAG_MANAGER d hd
  refine ⟨?_, ?_, ?_⟩
  · intro h
    refine ⟨?_, ?_, ?_⟩
    · unfold print_datatype_rdf_tsv
      rw [if_pos h]
    · unfold print_language_rdf_tsv
      rw [if_pos h]
    · rw [h] at hbit
      split at hbit <;> omega
  · intro h
    have hge : 0x8000 ≤ d := by
      rw [hbit] at h
      split at h <;> omega
    have hsub : d &&& not64 MASK_TAG_MANAGER = d - 0x8000 := by
      rw [hrem]
      omega
    refine ⟨?_, ?_, hsub, hge, ?_, by omega⟩
    · unfold print_datatype_rdf_tsv
      rw [if_neg h, hsub]
    · unfold print_language_rdf_tsv
      rw [if_neg h, hsub]
    · rw [← hsub]
      exact not64_MASK_TAG_MANAGER_and d
  · intro depth object_id hobj
    have key : ∀ c : Category, object_id &&& TYPE_MASK = E.mask c →
        switchCase E (object_id &&& TYPE_MASK) = some c := by
      intro c h
      rw [h]
      exact switchCase_mask E hinj c
    have h1 : ((object_id &&& VALUE_MASK) &&& MASK_LITERAL_TAG) >>> 40 = d := by
      rw [literal_tag_of_payload, hobj]
    have h2 : (object_id &&& MASK_LITERAL_TAG) >>> 40 = d := by
      rw [literal_tag_of_word, hobj]
    have h3 : (object_id &&& VALUE_MASK) &&& MASK_LITERAL = object_id % 2 ^ 40 :=
      literal_of_payload object_id
    have h4 : d % 2 ^ 16 = d := Nat.mod_eq_of_lt hd
    refine ⟨?_, ?_, ?_, ?_, ?_, ?_⟩
    · intro h
      rw [print_eq_printWith]
      unfold printWith
      simp only [key _ h, STR_DT_INLINE_BYTES, h2, h4]
    · intro h
      rw [print_eq_printWith]
      unfold printWith
      simp only [key _ h, h1, h3, h4]
    · intro h
      rw [print_eq_printWith]
      unfold printWith
      simp only [key _ h, h1, h3]
    · intro h
      rw [print_eq_printWith]
      unfold printWith
      simp only [key _ h, STR_LANG_INLINE_BYTES, h2, h4]
    · intro h
      rw [print_eq_printWith]
      unfold printWith
      simp only [key _ h, h1, h3, h4]
    · intro h
      rw [print_eq_printWith]
      unfold printWith
      simp only [key _ h, h1, h3]

/-- Witness of C7: the id `0x8003` is resolved by the temp manager at index 3. -/
theorem print_datatype_language_suffix_witness :
    print_datatype_rdf_tsv sampleEnv 0x8003 = "^^<" ++ sampleEnv.tmp_print_dtt (0x8003 - 0x8000) ++ ">"
    ∧ print_language_rdf_tsv sampleEnv 0x8003 = "@" ++ sampleEnv.tmp_print_lan (0x8003 - 0x8000) :=
  have h := (print_datatype_language_suffix sampleEnv sampleMask_injective 0x8003
    (by decide)).2.1 (by decide)
  ⟨h.1, h.2.1⟩

/-! ## Failure of the printer -/

theorem print_thrown_none_of_case (E : Env) (depth : Nat) (object_id : ObjectId)
    (c : Category) (hc : switchCase E (object_id &&& TYPE_MASK) = some c) (hne : c ≠ .PATH) :
    (print E depth object_id).thrown = none := by
  rw [print_eq_printWith]
  unfold printWith
  cases c <;> first
    | exact absurd rfl hne
    | (simp only [hc]; rfl)

theorem print_thrown_none_of_recognised (E : Env) (depth : Nat) (object_id : ObjectId)
    (hex : ∃ c, E.mask c = object_id &&& TYPE_MASK)
    (hne : object_id &&& TYPE_MASK ≠ E.mask .PATH) :
    (print E depth object_id).thrown = none := by
  cases hc : switchCase E (object_id &&& TYPE_MASK) with
  | none =>
    obtain ⟨c, hc2⟩ := hex
    exact absurd hc2 ((switchCase_eq_none E _).1 hc c)
  | some c =>
    refine print_thrown_none_of_case E depth object_id c hc ?_
    intro hp
    rw [hp] at hc
    exact hne (switchCase_some E _ _ hc).symm

theorem intercalate_go_append (s x : String) :
    ∀ (l : List String) (y : String),
      String.intercalate.go (x ++ y) s l = x ++ String.intercalate.go y s l
  | [], _ => rfl
  | a :: l, y => by
    show String.intercalate.go (x ++ y ++ s ++ a) s l
      = x ++ String.intercalate.go (y ++ s ++ a) s l
    rw [← intercalate_go_append s x l (y ++ s ++ a)]
    simp only [String.append_assoc]

theorem intercalate_singleton (s a : String) : String.intercalate s [a] = a := rfl

theorem intercalate_cons_cons (s a b : String) (l : List String) :
    String.intercalate s (a :: b :: l) = a ++ s ++ String.intercalate s (b :: l) := by
  show String.intercalate.go (a ++ s ++ b) s l = a ++ s ++ String.intercalate.go b s l
  exact intercalate_go_append s (a ++ s) l b

theorem foldl_append_acc (x : String) :
    ∀ (l : List String) (y : String),
      List.foldl (fun r s => r ++ s) (x ++ y) l = x ++ List.foldl (fun r s => r ++ s) y l
  | [], _ => rfl
  | a :: l, y => by
    show List.foldl (fun r s => r ++ s) (x ++ y ++ a) l
      = x ++ List.foldl (fun r s => r ++ s) (y ++ a) l
    rw [← foldl_append_acc x l (y ++ a), String.append_assoc]

theorem join_cons (a : String) (l : List String) :
    String.join (a :: l) = a ++ String.join l := by
  show List.foldl (fun r s => r ++ s) ("" ++ a) l = a ++ List.foldl (fun r s => r ++ s) "" l
  rw [String.empty_append]
  have h := foldl_append_acc a l ""
  rw [String.append_empty] at h
  exact h

theorem newline_append_mk (l : List Char) : "\n" ++ String.mk l = String.mk ('\n' :: l) := rfl

/-! ## The rows of the executor -/

theorem execute_empty_rows_eq :
    ∀ (root : List Binding) (result_count : Nat), result_count + root.length < 2 ^ 64 →
      execute_empty_rows root result_count
        = (String.mk (List.replicate root.length '\n'), result_count + root.length)
  | [], _, _ => rfl
  | _ :: root, result_count, h => by
    have hlen : result_count + 1 + root.length < 2 ^ 64 := by
      simp only [List.length_cons] at h
      omega
    have hmod : (result_count + 1) % 2 ^ 64 = result_count + 1 :=
      Nat.mod_eq_of_lt (by omega)
    unfold execute_empty_rows
    simp only [hmod, execute_empty_rows_eq root (result_count + 1) hlen, newline_append_mk,
      List.length_cons, List.replicate_succ]
    congr 1
    omega

theorem header_rest_eq (E : Env) (it : VarId) :
    ∀ (rest : List VarId) (acc : String),
      acc ++ E.get_var_name it ++ header_rest E rest
        = acc ++ String.intercalate "\t" ((it :: rest).map E.get_var_name)
  | [], acc => by
    simp [header_rest, intercalate_singleton]
  | v :: rest, acc => by
    have ih := header_rest_eq E v rest (acc ++ E.get_var_name it ++ "\t")
    simp only [List.map_cons, intercalate_cons_cons, header_rest, String.append_assoc] at ih ⊢
    exact ih

theorem row_loop_eq (E : Env) (depth : Nat) (binding : Binding) :
    ∀ (vars : List VarId) (sep : String),
      (∀ v ∈ vars, E.is_null (binding v) = false →
        (print E depth (binding v)).thrown = none) →
      row_loop E depth binding vars sep
        = ⟨(match nonNullValues E vars binding with
            | [] => ""
            | values => sep ++ String.intercalate "\t" (values.map (printed E depth))),
           nonNullValues E vars binding, none⟩
  | [], _, _ => rfl
  | it :: rest, sep, hok => by
    have hrest : ∀ v ∈ rest, E.is_null (binding v) = false →
        (print E depth (binding v)).thrown = none :=
      fun v hv => hok v (List.mem_cons_of_mem _ hv)
    by_cases hnull : E.is_null (binding it) = true
    · have hvals : nonNullValues E (it :: rest) binding = nonNullValues E rest binding := by
        simp [nonNullValues, hnull]
      unfold row_loop
      simp only [hnull, hvals, row_loop_eq E depth binding rest sep hrest]
      rfl
    · have hnull2 : E.is_null (binding it) = false := by
        simpa using hnull
      have hvals : nonNullValues E (it :: rest) binding
          = binding it :: nonNullValues E rest binding := by
        simp [nonNullValues, hnull2]
      have hthrown := hok it (List.mem_cons_self _ _) hnull2
      unfold row_loop
      simp only [hnull2, hthrown, hvals, row_loop_eq E depth binding rest "\t" hrest]
      cases hv : nonNullValues E rest binding with
      | nil => simp [printed, intercalate_singleton]
      | cons b l =>
        simp [printed, intercalate_cons_cons, String.append_assoc]

theorem execute_row_eq (E : Env) (depth : Nat) (projection_vars : List VarId)
    (binding : Binding)
    (hok : ∀ v ∈ projection_vars, E.is_null (binding v) = false →
      (print E depth (binding v)).thrown = none) :
    execute_row E depth projection_vars binding
      = ⟨String.intercalate "\t"
          ((nonNullValues E projection_vars binding).map (printed E depth)),
         nonNullValues E projection_vars binding, none⟩ := by
  unfold execute_row
  rw [row_loop_eq E depth binding projection_vars "" hok]
  cases hv : nonNullValues E projection_vars binding with
  | nil => rfl
  | cons b l => simp

theorem execute_rows_eq (E : Env) (depth : Nat) (projection_vars : List VarId) :
    ∀ (root : List Binding) (result_count : Nat), result_count + root.length < 2 ^ 64 →
      (∀ binding ∈ root, ∀ v ∈ projection_vars, E.is_null (binding v) = false →
        (print E depth (binding v)).thrown = none) →
      execute_rows E depth projection_vars root result_count
        = ⟨String.join (root.map (fun binding =>
            (execute_row E depth projection_vars binding).text ++ "\n")),
           .ok (result_count + root.length)⟩
  | [], _, _, _ => rfl
  | binding :: root, result_count, h, hok => by
    have hlen : result_count + 1 + root.length < 2 ^ 64 := by
      simp only [List.length_cons] at h
      omega
    have hmod : (result_count + 1) % 2 ^ 64 = result_count + 1 :=
      Nat.mod_eq_of_lt (by omega)
    have hrow := execute_row_eq E depth projection_vars binding
      (hok binding (List.mem_cons_self _ _))
    have hthrown : (execute_row E depth projection_vars binding).thrown = none := by
      rw [hrow]
    have ih := execute_rows_eq E depth projection_vars root (result_count + 1) hlen
      (fun b hb => hok b (List.mem_cons_of_mem _ hb))
    unfold execute_rows
    simp only [hmod, hthrown, ih, List.map_cons, join_cons, List.length_cons,
      String.append_assoc]
    congr 2
    omega

/-! ## The executor -/

/-- C1, the code at the claim's two rows: with three projected variables, the row `NULL`,
`NULL`, `"x"` is written as `"x"` with no leading tab, and the row `"x"`, `NULL`, `"y"` as
`"x"`, one tab, `"y"`; the column of a `NULL` value is dropped together with its tab. -/
theorem execute_row_drops_null_columns :
    (execute_row sampleEnv 0 [0, 1, 2]
        (fun v => if v = 2 then 0x0478000000000000 else 0)).text = "\"x\""
    ∧ (execute_row sampleEnv 0 [0, 1, 2]
        (fun v => if v = 0 then 0x0478000000000000
                  else if v = 2 then 0x0479000000000000 else 0)).text = "\"x\"\t\"y\""
    ∧ (execute sampleEnv 0 [0, 1, 2]
        [fun v => if v = 2 then 0x0478000000000000 else 0]).os = "x\ty\tv2\n\"x\"\n" := by
  decide

/-- C2: for a non-empty projection and a row whose projected non-null values all print, the
row loop of `execute` writes the printed forms of exactly the non-null projected values, in
projection order, joined by single tabs with nothing before the first, and then one newline;
`print` is called once for each of these values, in that order, and never with a null. -/
theorem execute_row_prints_non_null (E : Env) (depth : Nat) (projection_vars : List VarId)
    (hne : projection_vars ≠ []) (binding : Binding)
    (hok : ∀ v ∈ projection_vars, E.is_null (binding v) = false →
      (print E depth (binding v)).thrown = none) :
    (execute_row E depth projection_vars binding).text
      = String.intercalate "\t"
          (((projection_vars.map binding).filter (fun value => !E.is_null value)).map
            (fun value => render E.escape (print E depth value).writes))
    ∧ (execute_row E depth projection_vars binding).calls
      = (projection_vars.map binding).filter (fun value => !E.is_null value)
    ∧ (∀ value ∈ (execute_row E depth projection_vars binding).calls,
        E.is_null value = false)
    ∧ (execute_row E depth projection_vars binding).thrown = none
    ∧ (execute E depth projection_vars [binding]).os
      = String.intercalate "\t" (projection_vars.map E.get_var_name) ++ "\n"
        ++ (execute_row E depth projection_vars binding).text ++ "\n" := by
  have hrow := execute_row_eq E depth projection_vars binding hok
  refine ⟨?_, ?_, ?_, ?_, ?_⟩
  · rw [hrow]
    rfl
  · rw [hrow]
    rfl
  · rw [hrow]
    intro value hv
    have h2 : value ∈ (projection_vars.map binding).filter (fun value => !E.is_null value) :=
      hv
    simpa using (List.mem_filter.1 h2).2
  · rw [hrow]
  · cases projection_vars with
    | nil => exact absurd rfl hne
    | cons it rest =>
      have hrows := execute_rows_eq E depth (it :: rest) [binding] 0 (by simp)
        (fun b hb v hv hn => by
          rw [List.mem_singleton] at hb
          subst hb
          exact hok v hv hn)
      have hh := header_rest_eq E it rest ""
      simp only [String.empty_append] at hh
      unfold execute
      simp only [hrows, hh, List.map_cons, List.map_nil, String.join, List.foldl_cons,
        List.foldl_nil, String.empty_append, String.append_assoc]

/-- Witness of C2: the row `"x"`, `NULL`, `"y"` under three projected variables. -/
theorem execute_row_prints_non_null_witness :
    (execute_row sampleEnv 0 [0, 1, 2]
        (fun v => if v = 0 then 0x0478000000000000
                  else if v = 2 then 0x0479000000000000 else 0)).calls
      = ([0, 1, 2].map (fun v => if v = 0 then 0x0478000000000000
                  else if v = 2 then 0x0479000000000000 else 0)).filter
          (fun value => !sampleEnv.is_null value) :=
  (execute_row_prints_non_null sampleEnv 0 [0, 1, 2] (by decide)
    (fun v => if v = 0 then 0x0478000000000000
              else if v = 2 then 0x0479000000000000 else 0)
    (by decide)).2.1

/-- C3: with an empty projection and a root iterator that yields `n` rows (`n` a count that
fits the `uint64_t` result), `execute` writes exactly `n + 1` newline characters and nothing
else, and returns `n`; for 3 rows the output is 4 newlines and the result is 3. -/
theorem execute_empty_projection (E : Env) (depth : Nat) (root : List Binding)
    (hlen : root.length < 2 ^ 64) :
    (execute E depth [] root).os = String.mk (List.replicate (root.length + 1) '\n')
    ∧ (execute E depth [] root).result = .ok root.length
    ∧ (root.length = 3 →
        (execute E depth [] root).os = "\n\n\n\n" ∧ (execute E depth [] root).result = .ok 3) := by
  have hrows := execute_empty_rows_eq root 0 (by omega)
  have hos : (execute E depth [] root).os
      = String.mk (List.replicate (root.length + 1) '\n') := by
    unfold execute execute_empty_binding
    simp only [hrows, newline_append_mk, List.replicate_succ]
  have hres : (execute E depth [] root).result = .ok root.length := by
    unfold execute execute_empty_binding
    simp only [hrows, Nat.zero_add]
  refine ⟨hos, hres, ?_⟩
  intro h3
  rw [hos, hres, h3]
  exact ⟨rfl, rfl⟩

/-- Witness of C3: three rows and no projection variable give four newlines and the count 3. -/
theorem execute_empty_projection_witness :
    (execute sampleEnv 0 [] [fun _ => 0, fun _ => 1, fun _ => 2]).os = "\n\n\n\n"
    ∧ (execute sampleEnv 0 [] [fun _ => 0, fun _ => 1, fun _ => 2]).result = .ok 3 :=
  (execute_empty_projection sampleEnv 0 [fun _ => 0, fun _ => 1, fun _ => 2]
    (by simp)).2.2 rfl

/-- C4: for a non-empty projection and a root iterator that yields `n` rows (`n` a count that
fits the `uint64_t` result, the projected non-null values all printing), `execute` first
writes the names of the projection variables in projection order, separated by tabs and
followed by a newline, with nothing before the first name, also when there is no row; it then
writes the line of each row followed by a newline, and returns `n`; a row whose projected
values are all null gives an empty line and is counted. -/
theorem execute_header_rows_count (E : Env) (depth : Nat) (projection_vars : List VarId)
    (hne : projection_vars ≠ []) (root : List Binding) (hlen : root.length < 2 ^ 64)
    (hok : ∀ binding ∈ root, ∀ v ∈ projection_vars, E.is_null (binding v) = false →
      (print E depth (binding v)).thrown = none) :
    (execute E depth projection_vars root).os
      = String.intercalate "\t" (projection_vars.map E.get_var_name) ++ "\n"
        ++ String.join (root.map (fun binding =>
            (execute_row E depth projection_vars binding).text ++ "\n"))
    ∧ (execute E depth projection_vars root).result = .ok root.length
    ∧ (execute E depth projection_vars []).os
      = String.intercalate "\t" (projection_vars.map E.get_var_name) ++ "\n"
    ∧ (execute E depth projection_vars []).result = .ok 0
    ∧ (∀ binding : Binding, (∀ v ∈ projection_vars, E.is_null (binding v) = true) →
        (execute_row E depth projection_vars binding).text = ""
        ∧ (execute_row E depth projection_vars binding).calls = []) := by
  cases projection_vars with
  | nil => exact absurd rfl hne
  | cons it rest =>
    have hrows := execute_rows_eq E depth (it :: rest) root 0 (by omega) hok
    have hh := header_rest_eq E it rest ""
    simp only [String.empty_append] at hh
    refine ⟨?_, ?_, ?_, ?_, ?_⟩
    · unfold execute
      simp only [hrows, hh, String.append_assoc]
    · unfold execute
      simp only [hrows, Nat.zero_add]
    · unfold execute
      simp only [execute_rows, hh, String.append_empty]
    · rfl
    · intro binding hall
      have hrow := execute_row_eq E depth (it :: rest) binding
        (fun v hv hn => by
          rw [hall v hv] at hn
          exact absurd hn (by decide))
      have hvals : nonNullValues E (it :: rest) binding = [] := by
        unfold nonNullValues
        rw [List.filter_eq_nil_iff]
        intro value hvalue
        obtain ⟨v, hv, rfl⟩ := List.mem_map.1 hvalue
        simp [hall v hv]
      rw [hrow, hvals]
      exact ⟨rfl, rfl⟩

/-- Witness of C4: two projected variables and two rows, the second with both values null. -/
theorem execute_header_rows_count_witness :
    (execute sampleEnv 0 [0, 1] [fun _ => 0x0478000000000000, fun _ => 0]).result = .ok 2
    ∧ (execute sampleEnv 0 [0, 1] []).os
      = String.intercalate "\t" ([0, 1].map sampleEnv.get_var_name) ++ "\n" :=
  have h := execute_header_rows_count sampleEnv 0 [0, 1] (by decide)
    [fun _ => 0x0478000000000000, fun _ => 0] (by simp)
    (by
      intro binding hb v _ _
      have hvalue : binding v = 0x0478000000000000 ∨ binding v = 0 := by
        simp only [List.mem_cons, List.mem_singleton, List.not_mem_nil, or_false] at hb
        rcases hb with rfl | rfl
        · exact Or.inl rfl
        · exact Or.inr rfl
      rcases hvalue with h | h
      · rw [h]
        decide
      · rw [h]
        decide)
  ⟨h.2.1, h.2.2.1⟩

/-! ## The null branch, the order of negative integers, the escaping stream -/

theorem and_TYPE_MASK (x : Nat) : x &&& TYPE_MASK = x / 2 ^ 56 % 2 ^ 8 * 2 ^ 56 := by
  have h1 : (x &&& TYPE_MASK) >>> 56 = x / 2 ^ 56 % 2 ^ 8 :=
    and_field_shiftRight x 56 64 (by decide)
  have h2 : (x &&& TYPE_MASK) % 2 ^ 56 = 0 := by
    rw [← Nat.and_pow_two_sub_one_eq_mod, Nat.and_assoc]
    have h3 : TYPE_MASK &&& (2 ^ 56 - 1) = 0 := by decide
    rw [h3, Nat.and_zero]
  rw [Nat.shiftRight_eq_div_pow] at h1
  have h4 := Nat.div_add_mod (x &&& TYPE_MASK) (2 ^ 56)
  rw [h1, h2] at h4
  omega

theorem word_eq_tag_add_payload (x : Nat) (h : x < 2 ^ 64) :
    x = (x &&& TYPE_MASK) + (x &&& VALUE_MASK) := by
  rw [and_TYPE_MASK, and_VALUE_MASK]
  omega

theorem negativeIntValue_eq (x : Nat) :
    negativeIntValue x = -((2 ^ 56 - 1 - (x &&& VALUE_MASK) : Nat) : Int) := by
  unfold negativeIntValue
  have hn := not64_and_payload_lt x
  rw [toInt64_of_lt _ hn, wrapInt64_neg_of_lt _ (Int.ofNat_nonneg _) (by exact_mod_cast hn),
    not64_and_payload, and_VALUE_MASK]

theorem negativeIntValue_lt_iff (x y : Nat) :
    negativeIntValue x < negativeIntValue y ↔ x &&& VALUE_MASK < y &&& VALUE_MASK := by
  rw [negativeIntValue_eq, negativeIntValue_eq]
  have hx := and_VALUE_MASK x
  have hy := and_VALUE_MASK y
  omega

theorem same_tag_lt_iff (x y : Nat) (hx : x < 2 ^ 64) (hy : y < 2 ^ 64)
    (h : x &&& TYPE_MASK = y &&& TYPE_MASK) :
    x < y ↔ x &&& VALUE_MASK < y &&& VALUE_MASK := by
  have h1 := word_eq_tag_add_payload x hx
  have h2 := word_eq_tag_add_payload y hy
  omega

theorem render_eq_of_all_os (f g : String → String) :
    ∀ ws : List Write, (∀ w ∈ ws, w.stream = .os) → render f ws = render g ws
  | [], _ => rfl
  | w :: ws, h => by
    have hw : w.stream = .os := h w (List.mem_cons_self _ _)
    have ih := render_eq_of_all_os f g ws (fun v hv => h v (List.mem_cons_of_mem _ hv))
    simp only [render, hw, ih]

theorem writtenTo_escaped_of_all_os (ws : List Write) (h : ∀ w ∈ ws, w.stream = .os) :
    writtenTo .escaped_os ws = "" := by
  have hf : ws.filter (fun w => w.stream = .escaped_os) = [] := by
    rw [List.filter_eq_nil_iff]
    intro w hw
    simp [h w hw]
  unfold writtenTo
  rw [hf]
  rfl

theorem print_writes_os_of_not_string (E : Env) (depth : Nat) (object_id : ObjectId)
    (h : ∀ c : Category, c.isStringLiteral = true → E.mask c ≠ object_id &&& TYPE_MASK) :
    ∀ w ∈ (print E depth object_id).writes, w.stream = .os := by
  rw [print_eq_printWith]
  unfold printWith
  cases hc : switchCase E (object_id &&& TYPE_MASK) with
  | none =>
    simp only [hc]
    simp
  | some c =>
    have hm := switchCase_some E _ _ hc
    cases c <;> first
      | exact absurd hm (h _ rfl)
      | (simp only [hc]
         split <;> simp [done, raw])
      | (simp only [hc]
         simp [done, raw])

/-- C17: for an `ObjectId` with the tag of `NULL`, `print` writes nothing to the raw stream and
nothing to the escaping stream, and does not fail. -/
theorem print_null_is_empty (E : Env) (hinj : Function.Injective E.mask) (depth : Nat)
    (object_id : ObjectId) (h : object_id &&& TYPE_MASK = E.mask .NULL) :
    print E depth object_id = done []
    ∧ (print E depth object_id).writes = []
    ∧ writtenTo .os (print E depth object_id).writes = ""
    ∧ writtenTo .escaped_os (print E depth object_id).writes = ""
    ∧ (print E depth object_id).thrown = none := by
  have hc : switchCase E (object_id &&& TYPE_MASK) = some .NULL := by
    rw [h]
    exact switchCase_mask E hinj _
  have hpr : print E depth object_id = done [] := by
    rw [print_eq_printWith]
    unfold printWith
    simp only [hc]
  rw [hpr]
  exact ⟨rfl, rfl, rfl, rfl, rfl⟩

/-- Witness of C17: the null word of the sample environment. -/
theorem print_null_is_empty_witness :
    print sampleEnv 0 0 = done []
    ∧ (print sampleEnv 0 0).writes = []
    ∧ writtenTo .os (print sampleEnv 0 0).writes = ""
    ∧ writtenTo .escaped_os (print sampleEnv 0 0).writes = ""
    ∧ (print sampleEnv 0 0).thrown = none :=
  print_null_is_empty sampleEnv sampleMask_injective 0 0 (by decide)

/-- C18: on `NEGATIVE_INT` words the integer that `print` renders is strictly increasing in the
payload, so the unsigned order of two such words agrees with the order of the integers they
print as, and distinct payloads never render the same integer. -/
theorem print_negative_int_monotone (E : Env) (hinj : Function.Injective E.mask) (depth : Nat)
    (id1 id2 : ObjectId) (hw1 : id1 < 2 ^ 64) (hw2 : id2 < 2 ^ 64)
    (h1 : id1 &&& TYPE_MASK = E.mask .NEGATIVE_INT)
    (h2 : id2 &&& TYPE_MASK = E.mask .NEGATIVE_INT) :
    print E depth id1 = done [raw (toString (negativeIntValue id1))]
    ∧ print E depth id2 = done [raw (toString (negativeIntValue id2))]
    ∧ (id1 &&& VALUE_MASK < id2 &&& VALUE_MASK → negativeIntValue id1 < negativeIntValue id2)
    ∧ (id1 < id2 ↔ negativeIntValue id1 < negativeIntValue id2)
    ∧ (id1 &&& VALUE_MASK ≠ id2 &&& VALUE_MASK → negativeIntValue id1 ≠ negativeIntValue id2)
    ∧ negativeIntValue id1 = -((2 ^ 56 - 1 - (id1 &&& VALUE_MASK) : Nat) : Int) := by
  have key : ∀ object_id : ObjectId, object_id &&& TYPE_MASK = E.mask .NEGATIVE_INT →
      print E depth object_id = done [raw (toString (negativeIntValue object_id))] := by
    intro object_id h
    have hc : switchCase E (object_id &&& TYPE_MASK) = some .NEGATIVE_INT := by
      rw [h]
      exact switchCase_mask E hinj _
    rw [print_eq_printWith]
    unfold printWith
    simp only [hc]
    rfl
  have hlt := negativeIntValue_lt_iff id1 id2
  have hgt := negativeIntValue_lt_iff id2 id1
  refine ⟨key id1 h1, key id2 h2, hlt.2, ?_, ?_, negativeIntValue_eq id1⟩
  · rw [hlt]
    exact same_tag_lt_iff id1 id2 hw1 hw2 (h1.trans h2.symm)
  · intro hne heq
    rcases Nat.lt_or_gt_of_ne hne with hl | hg
    · exact absurd heq (ne_of_lt (hlt.2 hl))
    · exact absurd heq.symm (ne_of_lt (hgt.2 hg))

/-- Witness of C18: the payloads 1 and 2 of `NEGATIVE_INT`. -/
theorem print_negative_int_monotone_witness :
    (0x0A00000000000001 < 0x0A00000000000002
      ↔ negativeIntValue 0x0A00000000000001 < negativeIntValue 0x0A00000000000002) :=
  (print_negative_int_monotone sampleEnv sampleMask_injective 0
    0x0A00000000000001 0x0A00000000000002 (by decide) (by decide) (by decide)
    (by decide)).2.2.2.1

/-- C19: for an `ObjectId` whose tag is none of the twelve string-literal tags, every write of
`print` goes to the raw stream and none to the escaping stream, so the text produced is the
same whatever escaping stream is passed; for an edge with an IRI tag, `print(os, os, edge)`
as called by `print_path_edge` writes the same text as `print(os, escaped_os, edge)`, and
`print_path_edge` writes a space, `^` when the edge is inverse, that text and a space. -/
theorem print_ignores_escaping_stream (E : Env) (hinj : Function.Injective E.mask)
    (depth : Nat) (object_id : ObjectId) :
    ((∀ c : Category, c.isStringLiteral = true → E.mask c ≠ object_id &&& TYPE_MASK) →
      (∀ w ∈ (print E depth object_id).writes, w.stream = .os)
      ∧ writtenTo .escaped_os (print E depth object_id).writes = ""
      ∧ (∀ escape1 escape2 : String → String,
          render escape1 (print E depth object_id).writes
            = render escape2 (print E depth object_id).writes))
    ∧ (∀ c : Category, c = .IRI_EXTERN ∨ c = .IRI_INLINED ∨ c = .IRI_TMP →
        object_id &&& TYPE_MASK = E.mask c → ∀ inverse : Bool,
          render (fun s => s) (print E depth object_id).writes
            = render E.escape (print E depth object_id).writes
          ∧ print_path_edge (print E depth) object_id inverse
            = ⟨" " ++ (if inverse then "^" else "")
                ++ render E.escape (print E depth object_id).writes ++ " ", none⟩) := by
  have hfirst : (∀ c : Category, c.isStringLiteral = true → E.mask c ≠ object_id &&& TYPE_MASK) →
      (∀ w ∈ (print E depth object_id).writes, w.stream = .os)
      ∧ writtenTo .escaped_os (print E depth object_id).writes = ""
      ∧ (∀ escape1 escape2 : String → String,
          render escape1 (print E depth object_id).writes
            = render escape2 (print E depth object_id).writes) := by
    intro h
    have hos := print_writes_os_of_not_string E depth object_id h
    exact ⟨hos, writtenTo_escaped_of_all_os _ hos,
      fun escape1 escape2 => render_eq_of_all_os escape1 escape2 _ hos⟩
  refine ⟨hfirst, ?_⟩
  intro c hc htag inverse
  have hnot : ∀ c2 : Category, c2.isStringLiteral = true → E.mask c2 ≠ object_id &&& TYPE_MASK := by
    intro c2 h2 heq
    have h3 : c2 = c := hinj (heq.trans htag)
    rw [h3] at h2
    rcases hc with rfl | rfl | rfl <;> exact absurd h2 (by decide)
  have hpath : object_id &&& TYPE_MASK ≠ E.mask .PATH := by
    intro heq
    have h3 : c = .PATH := hinj (htag.symm.trans heq)
    rcases hc with rfl | rfl | rfl <;> exact absurd h3 (by decide)
  have hthrown := print_thrown_none_of_recognised E depth object_id ⟨c, htag.symm⟩ hpath
  have hrender := (hfirst hnot).2.2 (fun s => s) E.escape
  refine ⟨hrender, ?_⟩
  unfold print_path_edge
  simp only [hthrown, hrender]

/-- Witness of C19: the inlined IRI edge of the sample path, printed as an inverse edge. -/
theorem print_ignores_escaping_stream_witness :
    print_path_edge (print sampleEnv 0) 0x11016B6E6F777300 true
      = ⟨" " ++ (if true then "^" else "")
          ++ render sampleEnv.escape (print sampleEnv 0 0x11016B6E6F777300).writes ++ " ",
         none⟩ :=
  ((print_ignores_escaping_stream sampleEnv sampleMask_injective 0 0x11016B6E6F777300).2
    .IRI_INLINED (Or.inr (Or.inl rfl)) (by decide) true).2

/-! ## The variable sets of `OpBind` -/

/-- C14: for every child operator `op`, variable `var` and expression `expr`, `OpBind`
reports as scope variables those of `op` together with `var`, and as safe and as fixable
variables exactly those of `op`; `var` is always in scope, it is safe or fixable only if it
is so for `op`, and the three sets do not depend on `expr`: a variable of `expr` other than
`var` is in one of them only if it is so for `op`. -/
theorem OpBind_variable_sets (op : Op) (var : VarId) (expr : Expr) :
    (Op.OpBind op var expr).get_scope_vars = op.get_scope_vars ∪ {var}
    ∧ (Op.OpBind op var expr).get_safe_vars = op.get_safe_vars
    ∧ (Op.OpBind op var expr).get_fixable_vars = op.get_fixable_vars
    ∧ var ∈ (Op.OpBind op var expr).get_scope_vars
    ∧ (var ∈ (Op.OpBind op var expr).get_safe_vars ↔ var ∈ op.get_safe_vars)
    ∧ (var ∈ (Op.OpBind op var expr).get_fixable_vars ↔ var ∈ op.get_fixable_vars)
    ∧ (∀ expr2 : Expr,
        (Op.OpBind op var expr2).get_scope_vars = (Op.OpBind op var expr).get_scope_vars
        ∧ (Op.OpBind op var expr2).get_safe_vars = (Op.OpBind op var expr).get_safe_vars
        ∧ (Op.OpBind op var expr2).get_fixable_vars
            = (Op.OpBind op var expr).get_fixable_vars)
    ∧ (∀ v ∈ expr.all_vars, v ≠ var →
        (v ∈ (Op.OpBind op var expr).get_scope_vars ↔ v ∈ op.get_scope_vars)
        ∧ (v ∈ (Op.OpBind op var expr).get_safe_vars ↔ v ∈ op.get_safe_vars)
        ∧ (v ∈ (Op.OpBind op var expr).get_fixable_vars ↔ v ∈ op.get_fixable_vars)) := by
  refine ⟨?_, rfl, rfl, ?_, Iff.rfl, Iff.rfl, fun _ => ⟨rfl, rfl, rfl⟩, ?_⟩
  · ext v
    simp only [Op.get_scope_vars, Finset.mem_insert, Finset.mem_union, Finset.mem_singleton]
    exact Or.comm
  · simp only [Op.get_scope_vars, Finset.mem_insert, true_or]
  · intro v _ hne
    refine ⟨?_, Iff.rfl, Iff.rfl⟩
    simp only [Op.get_scope_vars, Finset.mem_insert, hne, false_or]

/-! ## The digest and the packed string -/

theorem hexDigit_mem (n : Nat) (h : n < 16) : SHA512.hexDigit n ∈ "0123456789abcdef".data := by
  interval_cases n <;> decide

theorem hexWord_length (w : Nat) : (SHA512.hexWord w).length = 16 := by
  simp [SHA512.hexWord]

theorem hexWord_mem (w : Nat) : ∀ c ∈ SHA512.hexWord w, c ∈ "0123456789abcdef".data := by
  intro c hc
  unfold SHA512.hexWord at hc
  obtain ⟨i, _, rfl⟩ := List.mem_map.1 hc
  exact hexDigit_mem _ (Nat.and_lt_two_pow _ (by decide : 0xF < 2 ^ 4))

theorem hash_length (str : String) : (SHA512.hash str).length = 128 := by
  simp [SHA512.hash, String.length, List.flatMap, hexWord_length]

theorem hash_lowercase_hex (str : String) :
    ∀ c ∈ (SHA512.hash str).data, c ∈ "0123456789abcdef".data := by
  intro c hc
  simp only [SHA512.hash, List.mem_flatMap] at hc
  obtain ⟨w, _, hw⟩ := hc
  exact hexWord_mem w c hw

set_option maxRecDepth 100000 in
theorem hash_abc : SHA512.hash "abc"
    = "ddaf35a193617abacc417349ae20413112e6fa4e89a97ea20a9eeee64b55d39a2192992a274fc1a836ba3c23a3feebbd454d4423643ce80e2a9ac94fa54ca49f" := by
  decide

theorem utf8Bytes_length_ge (l : List Char) :
    l.length ≤ (l.flatMap (fun c => (String.utf8EncodeChar c).map UInt8.toNat)).length := by
  induction l with
  | nil => simp
  | cons c l ih =>
    have hpos : 0 < c.utf8Size := Char.utf8Size_pos c
    simp only [List.flatMap_cons, List.length_append, List.length_map,
      String.length_utf8EncodeChar, List.length_cons]
    omega

theorem hash_not_inlined (str : String) : ¬ (utf8Bytes (SHA512.hash str)).length ≤ 7 := by
  have h1 := utf8Bytes_length_ge (SHA512.hash str).data
  have h2 : (SHA512.hash str).data.length = 128 := hash_length str
  unfold utf8Bytes
  omega

theorem tag_of_or_payload (m p : Nat) (hm : m &&& TYPE_MASK = m) (hp : p < 2 ^ 56) :
    (m ||| p) &&& TYPE_MASK = m := by
  have h0 : p &&& TYPE_MASK = 0 := by
    rw [and_TYPE_MASK]
    have hz : p / 2 ^ 56 = 0 := Nat.div_eq_of_lt hp
    rw [hz]
    rfl
  rw [Nat.and_comm, Nat.and_or_distrib_left, Nat.and_comm TYPE_MASK m, Nat.and_comm TYPE_MASK p,
    hm, h0, Nat.or_zero]

theorem get_sub_type_of_tag (E : Env) (hinj : Function.Injective E.mask) (object_id : ObjectId)
    (c : Category) (h : object_id &&& TYPE_MASK = E.mask c) :
    get_sub_type E object_id = some c.subType := by
  unfold get_sub_type
  rw [h, switchCase_mask E hinj c]
  rfl

theorem pack_string_simple_tag (E : Env) (X : ExprEnv)
    (htag : ∀ c, E.mask c &&& TYPE_MASK = E.mask c)
    (hpay : ∀ s, X.inline_string s < 2 ^ 56 ∧ X.tmp_get_str_id s < 2 ^ 56) (str : String) :
    pack_string_simple E X str &&& TYPE_MASK = E.mask .STRING_SIMPLE_INLINED
    ∨ pack_string_simple E X str &&& TYPE_MASK = E.mask .STRING_SIMPLE_TMP := by
  unfold pack_string_simple
  by_cases h : (utf8Bytes str).length ≤ 7
  · rw [if_pos h]
    exact Or.inl (tag_of_or_payload _ _ (htag _) (hpay str).1)
  · rw [if_neg h]
    exact Or.inr (tag_of_or_payload _ _ (htag _) (hpay str).2)

theorem pack_string_simple_not_null (E : Env) (X : ExprEnv) (hinj : Function.Injective E.mask)
    (htag : ∀ c, E.mask c &&& TYPE_MASK = E.mask c)
    (hpay : ∀ s, X.inline_string s < 2 ^ 56 ∧ X.tmp_get_str_id s < 2 ^ 56) (str : String) :
    get_sub_type E (pack_string_simple E X str) = some .STRING_SIMPLE
    ∧ pack_string_simple E X str &&& TYPE_MASK ≠ E.mask .NULL
    ∧ pack_string_simple E X str ≠ get_null E := by
  have hne : pack_string_simple E X str &&& TYPE_MASK ≠ E.mask .NULL := by
    rcases pack_string_simple_tag E X htag hpay str with h | h
    · rw [h]
      exact fun heq => absurd (hinj heq) (by decide)
    · rw [h]
      exact fun heq => absurd (hinj heq) (by decide)
  refine ⟨?_, hne, ?_⟩
  · rcases pack_string_simple_tag E X htag hpay str with h | h
    · exact get_sub_type_of_tag E hinj _ _ h
    · exact get_sub_type_of_tag E hinj _ _ h
  · intro heq
    apply hne
    rw [heq]
    exact htag .NULL

theorem sampleMask_tag (c : Category) : sampleEnv.mask c &&& TYPE_MASK = sampleEnv.mask c := by
  cases c <;> decide

theorem sampleExprEnv_payload (s : String) :
    sampleExprEnv.inline_string s < 2 ^ 56 ∧ sampleExprEnv.tmp_get_str_id s < 2 ^ 56 :=
  ⟨Nat.mod_lt _ (by decide), Nat.mod_lt _ (by decide)⟩

/-! ## `SHA512` and `TZ` -/

/-- C11: when the child evaluates to a simple string (`STRING_SIMPLE` in any storage variant)
that unpacks to `s`, `BindingExprSHA512::eval` returns `pack_string_simple` of the SHA-512
digest of the bytes of `s`, 128 lowercase hexadecimal characters; the result is a simple
string of the temp store and never the `NULL` word; for `s = "abc"` it is the simple string
`ddaf35a1...a54ca49f`. -/
theorem sha512_eval_simple_string (E : Env) (X : ExprEnv) (hinj : Function.Injective E.mask)
    (htag : ∀ c, E.mask c &&& TYPE_MASK = E.mask c)
    (hpay : ∀ s, X.inline_string s < 2 ^ 56 ∧ X.tmp_get_str_id s < 2 ^ 56)
    (expr : Binding → ObjectId) (binding : Binding) (c : Category)
    (hc : c = .STRING_SIMPLE_EXTERN ∨ c = .STRING_SIMPLE_INLINED ∨ c = .STRING_SIMPLE_TMP)
    (h : expr binding &&& TYPE_MASK = E.mask c) :
    get_sub_type E (expr binding) = some .STRING_SIMPLE
    ∧ (BindingExprSHA512.eval E X expr binding).value
      = pack_string_simple E X (SHA512.hash (X.unpack_string_simple (expr binding)))
    ∧ (SHA512.hash (X.unpack_string_simple (expr binding))).length = 128
    ∧ (∀ ch ∈ (SHA512.hash (X.unpack_string_simple (expr binding))).data,
        ch ∈ "0123456789abcdef".data)
    ∧ (BindingExprSHA512.eval E X expr binding).value
      = E.mask .STRING_SIMPLE_TMP
        ||| X.tmp_get_str_id (SHA512.hash (X.unpack_string_simple (expr binding)))
    ∧ get_sub_type E (BindingExprSHA512.eval E X expr binding).value = some .STRING_SIMPLE
    ∧ (BindingExprSHA512.eval E X expr binding).value &&& TYPE_MASK ≠ E.mask .NULL
    ∧ (BindingExprSHA512.eval E X expr binding).value ≠ get_null E
    ∧ (X.unpack_string_simple (expr binding) = "abc" →
        (BindingExprSHA512.eval E X expr binding).value
          = pack_string_simple E X
              "ddaf35a193617abacc417349ae20413112e6fa4e89a97ea20a9eeee64b55d39a2192992a274fc1a836ba3c23a3feebbd454d4423643ce80e2a9ac94fa54ca49f") := by
  have hsub : get_sub_type E (expr binding) = some .STRING_SIMPLE := by
    rw [get_sub_type_of_tag E hinj _ c h]
    rcases hc with rfl | rfl | rfl <;> rfl
  have hval : (BindingExprSHA512.eval E X expr binding).value
      = pack_string_simple E X (SHA512.hash (X.unpack_string_simple (expr binding))) := by
    unfold BindingExprSHA512.eval
    simp only [hsub, if_true]
  have hpack := pack_string_simple_not_null E X hinj htag hpay
    (SHA512.hash (X.unpack_string_simple (expr binding)))
  refine ⟨hsub, hval, hash_length _, hash_lowercase_hex _, ?_, ?_, ?_, ?_, ?_⟩
  · rw [hval]
    unfold pack_string_simple
    rw [if_neg (hash_not_inlined _)]
  · rw [hval]
    exact hpack.1
  · rw [hval]
    exact hpack.2.1
  · rw [hval]
    exact hpack.2.2
  · intro habc
    rw [hval, habc, hash_abc]

/-- Witness of C11: the child evaluates to the inlined simple string `abc`. -/
theorem sha512_eval_simple_string_witness :
    (BindingExprSHA512.eval sampleEnv sampleExprEnv (fun _ => 0x0461626300000000)
        (fun _ => 0)).value
      = pack_string_simple sampleEnv sampleExprEnv
          "ddaf35a193617abacc417349ae20413112e6fa4e89a97ea20a9eeee64b55d39a2192992a274fc1a836ba3c23a3feebbd454d4423643ce80e2a9ac94fa54ca49f" :=
  (sha512_eval_simple_string sampleEnv sampleExprEnv sampleMask_injective sampleMask_tag
    sampleExprEnv_payload (fun _ => 0x0461626300000000) (fun _ => 0) .STRING_SIMPLE_INLINED
    (Or.inr (Or.inl rfl)) (by decide)).2.2.2.2.2.2.2.2 (by decide)

/-- C12: when the child evaluates to an `ObjectId` of a temporal category (`DT_DATE`,
`DT_TIME`, `DT_DATETIME`, `DT_DATETIMESTAMP`), whose generic type is `MASK_DT`,
`BindingExprTZ::eval` returns `pack_string_simple` of `DateTime(oid).get_tz()`, a simple string
and never the `NULL` word; the child is evaluated exactly once, on the given binding, and the
binding is left as it was. -/
theorem tz_eval_temporal (E : Env) (X : ExprEnv) (hinj : Function.Injective E.mask)
    (htag : ∀ c, E.mask c &&& TYPE_MASK = E.mask c)
    (hpay : ∀ s, X.inline_string s < 2 ^ 56 ∧ X.tmp_get_str_id s < 2 ^ 56)
    (expr : Binding → ObjectId) (binding : Binding) (c : Category)
    (hc : c = .DT_DATE ∨ c = .DT_TIME ∨ c = .DT_DATETIME ∨ c = .DT_DATETIMESTAMP)
    (h : expr binding &&& TYPE_MASK = E.mask c) :
    get_generic_type E (expr binding) = some .DT
    ∧ (BindingExprTZ.eval E X expr binding).value
      = pack_string_simple E X (X.datetime_get_tz (expr binding))
    ∧ get_sub_type E (BindingExprTZ.eval E X expr binding).value = some .STRING_SIMPLE
    ∧ (BindingExprTZ.eval E X expr binding).value &&& TYPE_MASK ≠ E.mask .NULL
    ∧ (BindingExprTZ.eval E X expr binding).value ≠ get_null E
    ∧ (BindingExprTZ.eval E X expr binding).evaluated = [binding]
    ∧ (BindingExprTZ.eval E X expr binding).binding = binding := by
  have hgen : get_generic_type E (expr binding) = some .DT := by
    unfold get_generic_type
    rw [get_sub_type_of_tag E hinj _ c h]
    rcases hc with rfl | rfl | rfl | rfl <;> rfl
  have hval : BindingExprTZ.eval E X expr binding
      = ⟨pack_string_simple E X (X.datetime_get_tz (expr binding)), [binding], binding⟩ := by
    unfold BindingExprTZ.eval
    simp only [hgen, ne_eq, not_true_eq_false, if_false]
  have hpack := pack_string_simple_not_null E X hinj htag hpay
    (X.datetime_get_tz (expr binding))
  rw [hval]
  exact ⟨hgen, rfl, hpack.1, hpack.2.1, hpack.2.2, rfl, rfl⟩

/-- Witness of C12: the child evaluates to a `DT_DATETIME` word. -/
theorem tz_eval_temporal_witness :
    (BindingExprTZ.eval sampleEnv sampleExprEnv (fun _ => 0x1A00000000000000)
        (fun _ => 0)).value
      = pack_string_simple sampleEnv sampleExprEnv
          (sampleExprEnv.datetime_get_tz 0x1A00000000000000)
    ∧ (BindingExprTZ.eval sampleEnv sampleExprEnv (fun _ => 0x1A00000000000000)
        (fun _ => 0)).value ≠ get_null sampleEnv :=
  have h := tz_eval_temporal sampleEnv sampleExprEnv sampleMask_injective sampleMask_tag
    sampleExprEnv_payload (fun _ => 0x1A00000000000000) (fun _ => 0) .DT_DATETIME
    (Or.inr (Or.inr (Or.inl rfl))) (by decide)
  ⟨h.2.1, h.2.2.2.2.1⟩

/-- C13: when the sub type of the child's value is not `MASK_STRING_SIMPLE`,
`BindingExprSHA512::eval` returns the `NULL` word, and when its generic type is not
`MASK_DT`, `BindingExprTZ::eval` returns the `NULL` word; the first holds for every category
that is not a simple string and for a word of no category, the second for every category
that is not a temporal; in particular `SHA512(NULL)` and `TZ(NULL)` are `NULL`. -/
theorem eval_type_error_is_null (E : Env) (X : ExprEnv) (hinj : Function.Injective E.mask)
    (expr : Binding → ObjectId) (binding : Binding) :
    (get_sub_type E (expr binding) ≠ some .STRING_SIMPLE →
      (BindingExprSHA512.eval E X expr binding).value = get_null E)
    ∧ (get_generic_type E (expr binding) ≠ some .DT →
      (BindingExprTZ.eval E X expr binding).value = get_null E)
    ∧ (∀ c : Category, expr binding &&& TYPE_MASK = E.mask c →
        c.subType ≠ .STRING_SIMPLE →
        (BindingExprSHA512.eval E X expr binding).value = get_null E)
    ∧ (∀ c : Category, expr binding &&& TYPE_MASK = E.mask c →
        c.subType.genericType ≠ .DT →
        (BindingExprTZ.eval E X expr binding).value = get_null E)
    ∧ ((∀ c, E.mask c ≠ expr binding &&& TYPE_MASK) →
        (BindingExprSHA512.eval E X expr binding).value = get_null E
        ∧ (BindingExprTZ.eval E X expr binding).value = get_null E)
    ∧ (expr binding &&& TYPE_MASK = E.mask .NULL →
        (BindingExprSHA512.eval E X expr binding).value = get_null E
        ∧ (BindingExprTZ.eval E X expr binding).value = get_null E)
    ∧ (E.mask .NULL &&& TYPE_MASK = E.mask .NULL → expr binding = get_null E →
        (BindingExprSHA512.eval E X expr binding).value = get_null E
        ∧ (BindingExprTZ.eval E X expr binding).value = get_null E) := by
  have hsha : get_sub_type E (expr binding) ≠ some .STRING_SIMPLE →
      (BindingExprSHA512.eval E X expr binding).value = get_null E := by
    intro hne
    unfold BindingExprSHA512.eval
    simp only [hne, if_false]
  have htz : get_generic_type E (expr binding) ≠ some .DT →
      (BindingExprTZ.eval E X expr binding).value = get_null E := by
    intro hne
    unfold BindingExprTZ.eval
    simp only [ne_eq, hne, not_false_eq_true, if_true]
  have hshac : ∀ c : Category, expr binding &&& TYPE_MASK = E.mask c →
      c.subType ≠ .STRING_SIMPLE →
      (BindingExprSHA512.eval E X expr binding).value = get_null E := by
    intro c h hne
    apply hsha
    rw [get_sub_type_of_tag E hinj _ c h]
    exact fun heq => hne (Option.some.inj heq)
  have htzc : ∀ c : Category, expr binding &&& TYPE_MASK = E.mask c →
      c.subType.genericType ≠ .DT →
      (BindingExprTZ.eval E X expr binding).value = get_null E := by
    intro c h hne
    apply htz
    unfold get_generic_type
    rw [get_sub_type_of_tag E hinj _ c h]
    exact fun heq => hne (Option.some.inj heq)
  have hnull : expr binding &&& TYPE_MASK = E.mask .NULL →
      (BindingExprSHA512.eval E X expr binding).value = get_null E
      ∧ (BindingExprTZ.eval E X expr binding).value = get_null E :=
    fun h => ⟨hshac .NULL h (by decide), htzc .NULL h (by decide)⟩
  refine ⟨hsha, htz, hshac, htzc, ?_, hnull, ?_⟩
  · intro hnone
    have hsw := (switchCase_eq_none E _).2 hnone
    constructor
    · apply hsha
      unfold get_sub_type
      rw [hsw]
      exact fun heq => absurd heq (by simp)
    · apply htz
      unfold get_generic_type get_sub_type
      rw [hsw]
      exact fun heq => absurd heq (by simp)
  · intro hn heq
    apply hnull
    rw [heq]
    exact hn

/-- Witness of C13: `SHA512` and `TZ` of the `NULL` word of the sample environment. -/
theorem eval_type_error_is_null_witness :
    (BindingExprSHA512.eval sampleEnv sampleExprEnv (fun _ => get_null sampleEnv)
        (fun _ => 0)).value = get_null sampleEnv
    ∧ (BindingExprTZ.eval sampleEnv sampleExprEnv (fun _ => get_null sampleEnv)
        (fun _ => 0)).value = get_null sampleEnv :=
  (eval_type_error_is_null sampleEnv sampleExprEnv sampleMask_injective
    (fun _ => get_null sampleEnv) (fun _ => 0)).2.2.2.2.2.2 (by decide) rfl

/-! ## The nested loop join -/

theorem write_rhs_owned_twice (E : Env) (J : NestedLoopJoin) (l r r2 p : Binding) :
    NestedLoopJoin.write_rhs_owned E J l r2 (NestedLoopJoin.write_rhs_owned E J l r p)
      = NestedLoopJoin.write_rhs_owned E J l r2 p := by
  funext v
  unfold NestedLoopJoin.write_rhs_owned
  by_cases h1 : v ∈ J.rhs_only_vars
  · simp only [h1, if_true]
  · by_cases h2 : v ∈ J.safe_join_vars ++ J.unsafe_join_vars ∧ E.is_null (l v) = true
    · simp only [h1, h2, and_self, if_true, if_false]
    · simp only [h1, h2, if_false]

theorem joined_of_agree (E : Env) (J : NestedLoopJoin) (p p0 l r : Binding)
    (h : NestedLoopJoin.Agree J p p0) :
    NestedLoopJoin.joined E J p l r = NestedLoopJoin.joined E J p0 l r := by
  funext v
  unfold NestedLoopJoin.joined NestedLoopJoin.write_rhs_owned NestedLoopJoin.copy_lhs_owned
  by_cases h1 : v ∈ J.rhs_only_vars
  · simp only [h1, if_true]
  · by_cases h2 : v ∈ J.safe_join_vars ++ J.unsafe_join_vars ∧ E.is_null (l v) = true
    · simp only [h1, h2, and_self, if_true, if_false]
    · by_cases h3 : v ∈ J.lhs_owned
      · simp only [h1, h2, h3, if_true, if_false]
      · simp only [h1, h2, h3, if_false]
        exact h v h3 h1

theorem mem_lhs_owned_of_join_var (J : NestedLoopJoin) (v : VarId)
    (h : v ∈ J.safe_join_vars ++ J.unsafe_join_vars) : v ∈ J.lhs_owned := by
  unfold NestedLoopJoin.lhs_owned
  simp only [List.mem_append] at h ⊢
  tauto

theorem agree_copy_lhs_owned (J : NestedLoopJoin) (p p0 l : Binding)
    (h : NestedLoopJoin.Agree J p p0) :
    NestedLoopJoin.Agree J (NestedLoopJoin.copy_lhs_owned J l p) p0 := by
  intro v h3 h1
  unfold NestedLoopJoin.copy_lhs_owned
  simp only [h3, if_false]
  exact h v h3 h1

theorem agree_write_rhs_owned (E : Env) (J : NestedLoopJoin) (p p0 l r : Binding)
    (h : NestedLoopJoin.Agree J p p0) :
    NestedLoopJoin.Agree J (NestedLoopJoin.write_rhs_owned E J l r p) p0 := by
  intro v h3 h1
  have h2 : ¬ (v ∈ J.safe_join_vars ++ J.unsafe_join_vars ∧ E.is_null (l v) = true) :=
    fun hj => h3 (mem_lhs_owned_of_join_var J v hj.1)
  unfold NestedLoopJoin.write_rhs_owned
  simp only [h1, h2, if_false]
  exact h v h3 h1

theorem agree_clear_rhs_only (E : Env) (J : NestedLoopJoin) (p p0 : Binding)
    (h : NestedLoopJoin.Agree J p p0) :
    NestedLoopJoin.Agree J (NestedLoopJoin.clear_rhs_only E J p) p0 := by
  intro v h3 h1
  unfold NestedLoopJoin.clear_rhs_only
  simp only [h1, if_false]
  exact h v h3 h1

theorem scan_rhs_spec (E : Env) (J : NestedLoopJoin) (l p : Binding) :
    ∀ rows : List Binding,
      (NestedLoopJoin.scan_rhs E J l p rows = none
        ∧ rows.filter (NestedLoopJoin.join_predicate E J l) = [])
      ∨ ∃ r rest, NestedLoopJoin.scan_rhs E J l p rows
            = some (NestedLoopJoin.write_rhs_owned E J l r p, rest)
          ∧ rows.filter (NestedLoopJoin.join_predicate E J l)
            = r :: rest.filter (NestedLoopJoin.join_predicate E J l)
  | [] => Or.inl ⟨rfl, rfl⟩
  | r :: rest => by
    by_cases hp : NestedLoopJoin.join_predicate E J l r = true
    · right
      refine ⟨r, rest, ?_, ?_⟩
      · simp only [NestedLoopJoin.scan_rhs, hp, if_true]
      · simp only [List.filter_cons, hp, if_true]
    · have ih := scan_rhs_spec E J l p rest
      have hs : NestedLoopJoin.scan_rhs E J l p (r :: rest)
          = NestedLoopJoin.scan_rhs E J l p rest := by
        simp only [NestedLoopJoin.scan_rhs, hp, if_false]
        rfl
      have hf : (r :: rest).filter (NestedLoopJoin.join_predicate E J l)
          = rest.filter (NestedLoopJoin.join_predicate E J l) := by
        simp only [List.filter_cons, hp, if_false]
        rfl
      rw [hs, hf]
      exact ih

theorem joinRows_cons (E : Env) (J : NestedLoopJoin) (p0 : Binding) (rows : List Binding)
    (l : Binding) (lhs_rest : List Binding) :
    NestedLoopJoin.joinRows E J p0 rows (l :: lhs_rest)
      = (rows.filter (NestedLoopJoin.join_predicate E J l)).map (NestedLoopJoin.joined E J p0 l)
        ++ NestedLoopJoin.joinRows E J p0 rows lhs_rest := by
  unfold NestedLoopJoin.joinRows
  rw [List.flatMap_cons]

theorem found_spec (E : Env) (J : NestedLoopJoin) (p0 : Binding) (rows : List Binding)
    (l p r : Binding) (lhs_rest rest scanned : List Binding)
    (hagree : NestedLoopJoin.Agree J p p0)
    (hcur : ∀ r2, NestedLoopJoin.write_rhs_owned E J l r2 p = NestedLoopJoin.joined E J p0 l r2)
    (hfilter : scanned.filter (NestedLoopJoin.join_predicate E J l)
      = r :: rest.filter (NestedLoopJoin.join_predicate E J l)) :
    (scanned.filter (NestedLoopJoin.join_predicate E J l)).map (NestedLoopJoin.joined E J p0 l)
        ++ NestedLoopJoin.joinRows E J p0 rows lhs_rest
      = NestedLoopJoin.write_rhs_owned E J l r p
        :: NestedLoopJoin.remaining E J p0 rows
            ⟨NestedLoopJoin.write_rhs_owned E J l r p, lhs_rest, some l, rest⟩
    ∧ NestedLoopJoin.Invariant E J p0
        ⟨NestedLoopJoin.write_rhs_owned E J l r p, lhs_rest, some l, rest⟩ := by
  constructor
  · rw [hfilter, hcur r]
    rfl
  · refine ⟨agree_write_rhs_owned E J p p0 l r hagree, ?_⟩
    intro l2 hl2 r2
    have hl : l = l2 := Option.some.inj hl2
    subst hl
    show NestedLoopJoin.write_rhs_owned E J l r2 (NestedLoopJoin.write_rhs_owned E J l r p) = _
    rw [write_rhs_owned_twice, hcur r2]

theorem advance_spec (E : Env) (J : NestedLoopJoin) (p0 : Binding) (rows : List Binding)
    (hrows : ∀ q, J.original_rhs q = rows) :
    ∀ (lhs_rows : List Binding) (p : Binding), NestedLoopJoin.Agree J p p0 →
      ((NestedLoopJoin.advance E J lhs_rows p).1 = false
        ∧ NestedLoopJoin.joinRows E J p0 rows lhs_rows = [])
      ∨ ((NestedLoopJoin.advance E J lhs_rows p).1 = true
        ∧ NestedLoopJoin.joinRows E J p0 rows lhs_rows
          = (NestedLoopJoin.advance E J lhs_rows p).2.parent_binding
            :: NestedLoopJoin.remaining E J p0 rows (NestedLoopJoin.advance E J lhs_rows p).2
        ∧ NestedLoopJoin.Invariant E J p0 (NestedLoopJoin.advance E J lhs_rows p).2)
  | [], _, _ => Or.inl ⟨rfl, rfl⟩
  | l :: lhs_rest, p, hagree => by
    have hcopy := agree_copy_lhs_owned J p p0 l hagree
    have hcur : ∀ r2, NestedLoopJoin.write_rhs_owned E J l r2
        (NestedLoopJoin.copy_lhs_owned J l p) = NestedLoopJoin.joined E J p0 l r2 :=
      fun r2 => joined_of_agree E J p p0 l r2 hagree
    rw [joinRows_cons]
    rcases scan_rhs_spec E J l (NestedLoopJoin.copy_lhs_owned J l p) rows with
      ⟨hnone, hfilter⟩ | ⟨r, rest, hsome, hfilter⟩
    · have hadv : NestedLoopJoin.advance E J (l :: lhs_rest) p
          = NestedLoopJoin.advance E J lhs_rest
              (NestedLoopJoin.clear_rhs_only E J (NestedLoopJoin.copy_lhs_owned J l p)) := by
        simp only [NestedLoopJoin.advance, hrows, hnone]
      rw [hadv, hfilter, List.map_nil, List.nil_append]
      exact advance_spec E J p0 rows hrows lhs_rest _
        (agree_clear_rhs_only E J _ p0 hcopy)
    · have hadv : NestedLoopJoin.advance E J (l :: lhs_rest) p
          = (true, ⟨NestedLoopJoin.write_rhs_owned E J l r
              (NestedLoopJoin.copy_lhs_owned J l p), lhs_rest, some l, rest⟩) := by
        simp only [NestedLoopJoin.advance, hrows, hsome]
      rw [hadv]
      have hf := found_spec E J p0 rows l (NestedLoopJoin.copy_lhs_owned J l p) r lhs_rest
        rest rows hcopy hcur hfilter
      exact Or.inr ⟨rfl, hf.1, hf.2⟩

theorem next_spec (E : Env) (J : NestedLoopJoin) (p0 : Binding) (rows : List Binding)
    (hrows : ∀ q, J.original_rhs q = rows) (st : JoinState)
    (hinv : NestedLoopJoin.Invariant E J p0 st) :
    ((NestedLoopJoin.next E J st).1 = false ∧ NestedLoopJoin.remaining E J p0 rows st = [])
    ∨ ((NestedLoopJoin.next E J st).1 = true
      ∧ NestedLoopJoin.remaining E J p0 rows st
        = (NestedLoopJoin.next E J st).2.parent_binding
          :: NestedLoopJoin.remaining E J p0 rows (NestedLoopJoin.next E J st).2
      ∧ NestedLoopJoin.Invariant E J p0 (NestedLoopJoin.next E J st).2) := by
  obtain ⟨p, lhs_rest, cur, rhs_rest⟩ := st
  cases cur with
  | none => exact advance_spec E J p0 rows hrows lhs_rest p hinv.1
  | some l =>
    have hcur := hinv.2 l rfl
    have hagree : NestedLoopJoin.Agree J p p0 := hinv.1
    rcases scan_rhs_spec E J l p rhs_rest with ⟨hnone, hfilter⟩ | ⟨r, rest, hsome, hfilter⟩
    · have hnext : NestedLoopJoin.next E J ⟨p, lhs_rest, some l, rhs_rest⟩
          = NestedLoopJoin.advance E J lhs_rest (NestedLoopJoin.clear_rhs_only E J p) := by
        simp only [NestedLoopJoin.next, hnone]
      have hrem : NestedLoopJoin.remaining E J p0 rows ⟨p, lhs_rest, some l, rhs_rest⟩
          = NestedLoopJoin.joinRows E J p0 rows lhs_rest := by
        simp only [NestedLoopJoin.remaining, hfilter, List.map_nil, List.nil_append]
      rw [hnext, hrem]
      exact advance_spec E J p0 rows hrows lhs_rest _ (agree_clear_rhs_only E J p p0 hagree)
    · have hnext : NestedLoopJoin.next E J ⟨p, lhs_rest, some l, rhs_rest⟩
          = (true, ⟨NestedLoopJoin.write_rhs_owned E J l r p, lhs_rest, some l, rest⟩) := by
        simp only [NestedLoopJoin.next, hsome]
      rw [hnext]
      have hf := found_spec E J p0 rows l p r lhs_rest rest rhs_rest hagree hcur hfilter
      exact Or.inr ⟨rfl, hf.1, hf.2⟩

theorem drain_spec (E : Env) (J : NestedLoopJoin) (p0 : Binding) (rows : List Binding)
    (hrows : ∀ q, J.original_rhs q = rows) :
    ∀ (fuel : Nat) (st : JoinState), NestedLoopJoin.Invariant E J p0 st →
      (NestedLoopJoin.remaining E J p0 rows st).length < fuel →
      NestedLoopJoin.drain E J fuel st = some (NestedLoopJoin.remaining E J p0 rows st)
  | 0, _, _, h => absurd h (Nat.not_lt_zero _)
  | fuel + 1, st, hinv, h => by
    rcases next_spec E J p0 rows hrows st hinv with ⟨hfalse, hrem⟩ | ⟨htrue, hrem, hinv2⟩
    · have hn : NestedLoopJoin.next E J st = (false, (NestedLoopJoin.next E J st).2) :=
        Prod.ext hfalse rfl
      unfold NestedLoopJoin.drain
      rw [hn, hrem]
    · have hn : NestedLoopJoin.next E J st = (true, (NestedLoopJoin.next E J st).2) :=
        Prod.ext htrue rfl
      have hlen : (NestedLoopJoin.remaining E J p0 rows (NestedLoopJoin.next E J st).2).length
          < fuel := by
        rw [hrem, List.length_cons] at h
        omega
      have ih := drain_spec E J p0 rows hrows fuel _ hinv2 hlen
      unfold NestedLoopJoin.drain
      rw [hn]
      simp only [ih, Option.map_some']
      rw [← hrem]

theorem drain_begin (E : Env) (J : NestedLoopJoin) (p0 : Binding) (rows : List Binding)
    (hrows : ∀ q, J.original_rhs q = rows) (fuel : Nat)
    (hfuel : (NestedLoopJoin.joinRows E J p0 rows (J.lhs p0)).length < fuel) :
    NestedLoopJoin.drain E J fuel (NestedLoopJoin.begin J p0)
      = some (NestedLoopJoin.joinRows E J p0 rows (J.lhs p0)) :=
  drain_spec E J p0 rows hrows fuel (NestedLoopJoin.begin J p0)
    ⟨fun _ _ _ => rfl, fun _ h => absurd h (by simp [NestedLoopJoin.begin])⟩ hfuel

/-- C15: with empty `safe_join_vars` (and an rhs that yields the same rows whenever it is
begun), the rows of `next()` are exactly those of the pairs of an lhs row and an rhs row, in
lhs-major order, for which every variable of `unsafe_join_vars` bound on both sides is
bit-equal; the row of a pair is the parent binding with the rhs-only variables taken from the
rhs row and the lhs-owned variables bound by the lhs row taken from the lhs row. With the lhs
rows `{?a=1, ?b=2}`, `{?a=3, ?b=4}`, the rhs rows `{?b=2, ?c=5}`, `{?b=9, ?c=6}` and
`unsafe_join_vars = {?b}`, `next()` returns true exactly once, for `{?a=1, ?b=2, ?c=5}`. -/
theorem nested_loop_join_unsafe_rows (E : Env) (J : NestedLoopJoin)
    (hsafe : J.safe_join_vars = []) (parent : Binding) (rows : List Binding)
    (hrows : ∀ q, J.original_rhs q = rows) (fuel : Nat)
    (hfuel : (NestedLoopJoin.joinRows E J parent rows (J.lhs parent)).length < fuel) :
    NestedLoopJoin.drain E J fuel (NestedLoopJoin.begin J parent)
      = some ((J.lhs parent).flatMap (fun l =>
          (rows.filter (fun r => NestedLoopJoin.join_predicate E J l r)).map
            (fun r => NestedLoopJoin.joined E J parent l r)))
    ∧ (∀ l r : Binding, NestedLoopJoin.join_predicate E J l r = true ↔
        ∀ v ∈ J.unsafe_join_vars, E.is_null (l v) = false → E.is_null (r v) = false →
          l v = r v)
    ∧ (∀ (l r : Binding) (v : VarId), v ∈ J.rhs_only_vars →
        NestedLoopJoin.joined E J parent l r v = r v)
    ∧ (∀ (l r : Binding) (v : VarId), v ∈ J.lhs_owned → v ∉ J.rhs_only_vars →
        E.is_null (l v) = false → NestedLoopJoin.joined E J parent l r v = l v)
    ∧ (∀ (l r : Binding) (v : VarId), v ∉ J.lhs_owned → v ∉ J.rhs_only_vars →
        NestedLoopJoin.joined E J parent l r v = parent v)
    ∧ (NestedLoopJoin.drain sampleEnv (sampleJoin [] [1]) 5
          (NestedLoopJoin.begin (sampleJoin [] [1]) (fun _ => 0))).map
        (List.map (fun b => [b 0, b 1, b 2]))
      = some [[0x0900000000000001, 0x0900000000000002, 0x0900000000000005]] := by
  refine ⟨drain_begin E J parent rows hrows fuel hfuel, ?_, ?_, ?_, ?_, by decide⟩
  · intro l r
    simp only [NestedLoopJoin.join_predicate, hsafe, List.all_nil, Bool.true_and,
      List.all_eq_true, Bool.or_eq_true, Bool.not_eq_true', Bool.and_eq_false_imp,
      Bool.not_eq_false', beq_iff_eq]
    constructor
    · intro h v hv hl hr
      rcases h v hv with h1 | h1
      · have h2 := h1 (by simp [hl])
        simp [hr] at h2
      · exact h1
    · intro h v hv
      by_cases hl : E.is_null (l v) = true
      · left
        intro h1
        simp [hl] at h1
      · by_cases hr : E.is_null (r v) = true
        · left
          intro _
          simp [hr]
        · right
          exact h v hv (by simpa using hl) (by simpa using hr)
  · intro l r v hv
    simp only [NestedLoopJoin.joined, NestedLoopJoin.write_rhs_owned, hv, if_true]
  · intro l r v hv hnot hl
    simp only [NestedLoopJoin.joined, NestedLoopJoin.write_rhs_owned,
      NestedLoopJoin.copy_lhs_owned, hnot, hl, hv, if_true, if_false, and_false,
      Bool.false_eq_true]
  · intro l r v hv hnot
    have h2 : ¬ (v ∈ J.safe_join_vars ++ J.unsafe_join_vars ∧ E.is_null (l v) = true) :=
      fun hj => hv (mem_lhs_owned_of_join_var J v hj.1)
    simp only [NestedLoopJoin.joined, NestedLoopJoin.write_rhs_owned,
      NestedLoopJoin.copy_lhs_owned, hnot, h2, hv, if_false]

/-- Witness of C15: the scenario with `unsafe_join_vars = {?b}` gives the one row
`{?a=1, ?b=2, ?c=5}`. -/
theorem nested_loop_join_unsafe_rows_witness :
    (NestedLoopJoin.drain sampleEnv (sampleJoin [] [1]) 5
          (NestedLoopJoin.begin (sampleJoin [] [1]) (fun _ => 0))).map
        (List.map (fun b => [b 0, b 1, b 2]))
      = some [[0x0900000000000001, 0x0900000000000002, 0x0900000000000005]] :=
  (congrArg (Option.map (List.map (fun b : Binding => [b 0, b 1, b 2])))
    (nested_loop_join_unsafe_rows sampleEnv (sampleJoin [] [1]) rfl (fun _ => 0)
      [sampleRow 0 0x0900000000000002 0x0900000000000005,
       sampleRow 0 0x0900000000000009 0x0900000000000006]
      (fun _ => rfl) 5 (by decide)).1).trans (by decide)

end MillenniumDB
